import Mathlib

/-!
# libvmod-redis: the per-thread Redis session engine

A shallow embedding of `src/vmod_redis.c`.

Conventions of the embedding.

* A C string (`const char *`) is a `String` holding the characters before the
  terminating NUL; a pointer that may be `NULL` is an `Option`.  The field
  `str` of a reply holds the `len` bytes of its payload, which may contain NUL;
  what the code reads of it through `const char *` is `c_string`.
* `thread_state_t.argv` / `argc`: the array of 128 pointers together with its
  fill count is a `List String`; `argc` is the length of that list.  Writing
  `argv[argc++]` appends, the flush loop `while (argc > 0) free(argv[--argc])`
  leaves the empty list, `argv[i] = v` is `List.set`.
* Machine integers are `Nat` / `Int` with the conversions of the C code made
  explicit (`int_of_size_t`, `size_t_of_int`).
* hiredis, mhash and the Varnish log are external collaborators.  hiredis and
  mhash are the fields of `Env`; everything the code does to the outside
  (connection attempts, `redisFree`, commands handed to `redisCommandArgv`,
  log records) is recorded in `World`.
* `thread_key` is per worker thread: `Thread.specific` is the value that
  `pthread_getspecific(thread_key)` returns on that thread.
* The block `sha1` returns holds its 40 digits and no terminator
  (`sha1_block`); what a reader of that C string finds behind the block is
  given by `Env.heap_after`.
-/

namespace VmodRedis

/-! ## Constants -/

/-- Capacity of `thread_state_t.argv` (line 41). -/
def MAX_REDIS_COMMAND_ARGS : Nat := 128

/-- Reply type tag of hiredis.h. -/
def REDIS_REPLY_STRING : Int := 1
/-- Reply type tag of hiredis.h. -/
def REDIS_REPLY_ARRAY : Int := 2
/-- Reply type tag of hiredis.h. -/
def REDIS_REPLY_INTEGER : Int := 3
/-- Reply type tag of hiredis.h. -/
def REDIS_REPLY_NIL : Int := 4
/-- Reply type tag of hiredis.h. -/
def REDIS_REPLY_STATUS : Int := 5
/-- Reply type tag of hiredis.h. -/
def REDIS_REPLY_ERROR : Int := 6

/-! ## Data model -/

/-- The `redisReply` of hiredis.h: `type`, `integer` (long long), `str` and the
`element` array, whose length is the field `elements`. -/
inductive redisReply where
  | mk (type : Int) (integer : Int) (str : String) (element : List redisReply)

namespace redisReply

/-- Field `type`. -/
def type : redisReply → Int
  | mk t _ _ _ => t

/-- Field `integer`. -/
def integer : redisReply → Int
  | mk _ i _ _ => i

/-- Field `str`. -/
def str : redisReply → String
  | mk _ _ s _ => s

/-- Field `element`. -/
def element : redisReply → List redisReply
  | mk _ _ _ e => e

/-- Field `elements` (a `size_t`): the number of entries of `element`. -/
def elements (r : redisReply) : Nat := r.element.length

end redisReply

/-- The `redisContext` of hiredis.h as far as the module reads it: the error
flag `err` and its text `errstr`.  `id` tells connections apart: it is the
number of the connection attempt that created this one. -/
structure redisContext where
  id : Nat
  err : Int
  errstr : String
deriving DecidableEq, Repr

/-- The configuration `vcl_priv_t` (lines 21-28). -/
structure vcl_priv_t where
  host : String
  port : Nat
  tv_sec : Int
  tv_usec : Int
deriving DecidableEq, Repr

/-- What the module reads of the host's `struct sess`: the request identity. -/
structure sess where
  xid : Nat
  id : Int
deriving DecidableEq, Repr

/-- The per-thread `thread_state_t` (lines 30-45). -/
structure thread_state where
  xid : Nat
  id : Int
  context : Option redisContext
  argv : List String
  reply : Option redisReply

/-- Field `argc`: the number of entries of `argv` in use. -/
def thread_state.argc (state : thread_state) : Nat := state.argv.length

/-- One call of `redisCommandArgv`: the context it was given (as it was when
the command was handed over) and the argument vector. -/
structure Sent where
  context : redisContext
  argv : List String
deriving DecidableEq, Repr

/-- One record written by `REDIS_LOG`: the calling function, the message
format and the values formatted into it. -/
structure LogEntry where
  func : String
  message : String
  args : List String
deriving DecidableEq, Repr

/-- The trace of what one worker thread has done to the outside. -/
structure World where
  attempts : Nat
  freed : List Nat
  sent : List Sent
  log : List LogEntry
deriving DecidableEq, Repr

/-- The external collaborators.  `redisConnectWithTimeout` gives the `err` and
`errstr` of the context a connection attempt returns, `redisCommandArgv` the
reply (or `NULL`) and the `err` / `errstr` the context carries afterwards;
both may depend on everything that happened before.  `mhash` gives byte `i` of
the hash of a text.  `heap_after` gives what lies in memory behind the block
that `sha1` returns for a script: the characters from the byte after the block
up to the first NUL, as `strlen` finds them when the command is handed to the
transport (nothing when that byte is zero). -/
structure Env where
  redisConnectWithTimeout : World → vcl_priv_t → Int × String
  redisCommandArgv : World → redisContext → List String → Option redisReply × Int × String
  mhash : String → Nat → Nat
  heap_after : World → String → String

/-- One worker thread: its thread-specific value and its trace. -/
structure Thread where
  specific : Option thread_state
  world : World

/-! ## Utilities -/

/-- The macro `REDIS_LOG` (lines 47-54). -/
def REDIS_LOG (w : World) (func message : String) (args : List String) : World :=
  { w with log := w.log ++ [{ func := func, message := message, args := args }] }

/-- Conversion of a `size_t` to `int` (implementation-defined; two's complement
wrap-around on the supported compilers). -/
def int_of_size_t (n : Nat) : Int := ((n : Int) + 2 ^ 31) % 2 ^ 32 - 2 ^ 31

/-- Conversion of an `int` to `size_t` for a comparison (usual arithmetic
conversions, 64-bit `size_t`). -/
def size_t_of_int (i : Int) : Nat := (i % 2 ^ 64).toNat

/-- Conversion of a `long long` to `int`. -/
def int_of_long_long (n : Int) : Int := (n + 2 ^ 31) % 2 ^ 32 - 2 ^ 31

/-- The digest size `mhash_get_block_size(MHASH_SHA1)`. -/
def block_size : Nat := 20

/-- One hexadecimal digit, lowercase. -/
def hex_digit (n : Nat) : Char :=
  if n < 10 then Char.ofNat (48 + n) else Char.ofNat (87 + n)

/-- The text `sprintf("%.2x", b)` writes for an `unsigned char` `b`. -/
def hex2 (b : Nat) : List Char := [hex_digit (b / 16), hex_digit (b % 16)]

/-- The digits the loop of `sha1` (lines 562-565) writes: two hexadecimal digits
per byte of the `block_size` bytes of the hash. -/
def sha1_digits (env : Env) (script : String) : String :=
  String.mk (((List.range block_size).map fun i => hex2 (env.mhash script i % 256)).flatten)

/-- The function `sha1` (lines 548-569), as the C string found at the pointer it
returns.  The block has `block_size * 2` bytes, all taken by the digits, and
the terminating NUL is written behind it (`sha1_block`); a reader of the C
string finds the digits followed by what lies behind the block. -/
def sha1 (env : Env) (w : World) (script : String) : String :=
  sha1_digits env script ++ env.heap_after w script

/-- The `toupper` of ctype.h in the C locale. -/
def toupper (c : Char) : Char :=
  if 97 ≤ c.toNat ∧ c.toNat ≤ 122 then Char.ofNat (c.toNat - 32) else c

/-- The loop `while (*ptr++ = toupper(*ptr));` (line 163) over the characters
before the NUL, each position receiving the `toupper` of the character it
holds.  The read of `*ptr` on the right and the increment on the left are
unsequenced in C; this is the reading in which the right operand is evaluated
before the increment takes effect. -/
def upper_loop : List Char → List Char
  | [] => []
  | c :: cs => toupper c :: upper_loop cs

/-- The C string found at a pointer to the bytes `s` followed by a NUL: the
bytes before the first NUL. -/
def c_string (s : String) : String :=
  String.mk (s.toList.takeWhile fun ch => decide (ch ≠ Char.ofNat 0))

/-- The host's `WS_Dup(sp->ws, s)`: a copy of the C string at `s` in the
workspace of the request. -/
def WS_Dup (s : String) : String := c_string s

/-- The function `get_reply` (lines 512-546). -/
def get_reply (reply : redisReply) : Option String :=
  if reply.type = REDIS_REPLY_ERROR ∨ reply.type = REDIS_REPLY_STATUS
      ∨ reply.type = REDIS_REPLY_STRING then
    some (WS_Dup reply.str)
  else if reply.type = REDIS_REPLY_INTEGER then
    some (WS_Dup (toString reply.integer))
  else if reply.type = REDIS_REPLY_ARRAY then
    some (WS_Dup "array")
  else
    none

/-! ## `get_thread_state` (lines 416-486) -/

/-- Lines 427-445: create the thread state on first use, otherwise drop a
context found in an error state. -/
def check_state (sp : sess) (t : Thread) : thread_state × World :=
  match t.specific with
  | none =>
    ({ xid := sp.xid, id := sp.id, context := none, argv := [], reply := none }, t.world)
  | some result =>
    match result.context with
    | some c =>
      if c.err ≠ 0 then
        ({ result with context := none }, { t.world with freed := t.world.freed ++ [c.id] })
      else (result, t.world)
    | none => (result, t.world)

/-- Lines 449-460: open a connection when there is none; a context that reports
an error is logged and discarded. -/
def create_context (env : Env) (config : vcl_priv_t) (result : thread_state) (w : World) :
    thread_state × World :=
  match result.context with
  | some _ => (result, w)
  | none =>
    let r := env.redisConnectWithTimeout w config
    let c : redisContext := { id := w.attempts, err := r.1, errstr := r.2 }
    let w1 : World := { w with attempts := w.attempts + 1 }
    if c.err ≠ 0 then
      let w2 := REDIS_LOG w1 "get_thread_state"
        "Failed to establish Redis connection (%d): %s" [toString c.err, c.errstr]
      ({ result with context := none }, { w2 with freed := w2.freed ++ [c.id] })
    else
      ({ result with context := some c }, w1)

/-- Lines 464-482: a new request identity is recorded and forces the flush;
the flush drops the command and the reply. -/
def check_request (sp : sess) (flush : Bool) (result : thread_state) : thread_state :=
  let new_request : Bool := decide (result.xid ≠ sp.xid ∨ result.id ≠ sp.id)
  let result1 : thread_state :=
    if new_request then { result with xid := sp.xid, id := sp.id } else result
  let flush1 : Bool := if new_request then true else flush
  if flush1 then { result1 with argv := [], reply := none } else result1

/-- The function `get_thread_state`: the state returned to the caller and the
trace afterwards. -/
def get_thread_state (env : Env) (sp : sess) (config : vcl_priv_t) (flush : Bool)
    (t : Thread) : thread_state × World :=
  let r1 := check_state sp t
  let r2 := create_context env config r1.1 r1.2
  (check_request sp flush r2.1, r2.2)

/-! ## The command builder -/

/-- The function `vmod_command` (lines 150-169). -/
def vmod_command (env : Env) (sp : sess) (config : vcl_priv_t) (name : Option String)
    (t : Thread) : Thread :=
  match name with
  | none => t
  | some n =>
    if n.length > 0 then
      let r := get_thread_state env sp config true t
      let command := String.mk (upper_loop n.toList)
      { specific := some { r.1 with argv := [command] }, world := r.2 }
    else t

/-- The function `vmod_push` (lines 175-194). -/
def vmod_push (env : Env) (sp : sess) (config : vcl_priv_t) (arg : Option String)
    (t : Thread) : Thread :=
  let r := get_thread_state env sp config false t
  let state := r.1
  if state.argc ≥ 1 ∧ state.argc < MAX_REDIS_COMMAND_ARGS then
    match arg with
    | some a => { specific := some { state with argv := state.argv ++ [a] }, world := r.2 }
    | none => { specific := some { state with argv := state.argv ++ [""] }, world := r.2 }
  else
    { specific := some state,
      world := REDIS_LOG r.2 "vmod_push" "Failed to push Redis argument" [] }

/-- The function `vmod_free` (lines 382-386). -/
def vmod_free (env : Env) (sp : sess) (config : vcl_priv_t) (t : Thread) : Thread :=
  let r := get_thread_state env sp config true t
  { specific := some r.1, world := r.2 }

/-! ## The execution protocol -/

/-- One call `state->reply = redisCommandArgv(state->context, argc, argv, NULL)`:
the command is handed to the transport, the reply is stored and the context
carries the error flag the transport left. -/
def send_command (env : Env) (state : thread_state) (c : redisContext) (w : World) :
    thread_state × redisContext × World :=
  let r := env.redisCommandArgv w c state.argv
  let c1 : redisContext := { c with err := r.2.1, errstr := r.2.2 }
  ({ state with reply := r.1, context := some c1 }, c1,
   { w with sent := w.sent ++ [{ context := c, argv := state.argv }] })

/-- The test of lines 229-232: no transport error, a reply, of type error,
whose text starts with the eight characters of NOSCRIPT. -/
def is_noscript (c : redisContext) (reply : Option redisReply) : Bool :=
  match reply with
  | none => false
  | some r =>
    decide (c.err = 0) && decide (r.type = REDIS_REPLY_ERROR)
      && "NOSCRIPT".toList.isPrefixOf r.str.toList

/-- Lines 210-245: an EVAL command with a script is first tried as EVALSHA,
`argv[1]` being the pointer `sha1` returned, which `redisCommandArgv` reads as
a C string.  The last component is `done`. -/
def try_evalsha (env : Env) (state : thread_state) (c : redisContext) (w : World) :
    thread_state × redisContext × World × Bool :=
  if state.argv.head? = some "EVAL" ∧ state.argc ≥ 2 then
    let script := state.argv.getD 1 ""
    let state1 : thread_state :=
      { state with argv := (state.argv.set 0 "EVALSHA").set 1 (sha1 env w script) }
    let r := send_command env state1 c w
    if is_noscript r.2.1 r.1.reply then
      ({ r.1 with argv := (r.1.argv.set 0 "EVAL").set 1 script }, r.2.1, r.2.2, false)
    else
      (r.1, r.2.1, r.2.2, true)
  else
    (state, c, w, false)

/-- Lines 257-273: the outcome is classified and failures are logged. -/
def check_reply (state : thread_state) (c : redisContext) (w : World) : World :=
  if c.err ≠ 0 then
    REDIS_LOG w "vmod_execute" "Failed to execute Redis command (%s): [%d] %s"
      [state.argv.getD 0 "", toString c.err, c.errstr]
  else
    match state.reply with
    | none =>
      REDIS_LOG w "vmod_execute" "Failed to execute Redis command (%s)"
        [state.argv.getD 0 ""]
    | some r =>
      if r.type = REDIS_REPLY_ERROR then
        REDIS_LOG w "vmod_execute" "Got error reply while executing Redis command (%s): %s"
          [state.argv.getD 0 "", c_string r.str]
      else w

/-- Lines 209-273, run once a command and a context are there: the EVALSHA
attempt, the send unless `done`, the check of the reply. -/
def execute_body (env : Env) (state : thread_state) (c : redisContext) (w : World) : Thread :=
  let e := try_evalsha env state c w
  let s := if e.2.2.2 then (e.1, e.2.1, e.2.2.1) else send_command env e.1 e.2.1 e.2.2.1
  { specific := some s.1, world := check_reply s.1 s.2.1 s.2.2 }

/-- The function `vmod_execute` (lines 200-275). -/
def vmod_execute (env : Env) (sp : sess) (config : vcl_priv_t) (t : Thread) : Thread :=
  let r := get_thread_state env sp config false t
  let state := r.1
  match state.context with
  | none => { specific := some state, world := r.2 }
  | some c =>
    if state.argc ≥ 1 then execute_body env state c r.2
    else { specific := some state, world := r.2 }

/-! ## The reply adapter -/

/-- A read outside an object. -/
inductive Fault where
  | out_of_bounds
deriving DecidableEq, Repr

/-- The functions `vmod_reply_is_*` (macro `VMOD_REPLY_IS_FOO`, lines 286-294)
for the type tag `upper`. -/
def vmod_reply_is (upper : Int) (env : Env) (sp : sess) (config : vcl_priv_t) (t : Thread) :
    Bool × Thread :=
  let r := get_thread_state env sp config false t
  let state := r.1
  (match state.reply with
   | some reply => decide (reply.type = upper)
   | none => false,
   { specific := some state, world := r.2 })

/-- The function `vmod_get_reply` (lines 307-316). -/
def vmod_get_reply (env : Env) (sp : sess) (config : vcl_priv_t) (t : Thread) :
    Option String × Thread :=
  let r := get_thread_state env sp config false t
  let state := r.1
  (match state.reply with
   | some reply => get_reply reply
   | none => none,
   { specific := some state, world := r.2 })

/-- The string-valued functions `vmod_get_*_reply` (macro `VMOD_GET_FOO_REPLY`,
lines 325-341, with `reply_field = str` and `fallback_value = NULL`); the
pointer returned is read as a C string. -/
def vmod_get_str_reply (upper : Int) (env : Env) (sp : sess) (config : vcl_priv_t)
    (t : Thread) : Option String × Thread :=
  let r := get_thread_state env sp config false t
  let state := r.1
  (match state.reply with
   | some reply => if reply.type = upper then some (c_string reply.str) else none
   | none => none,
   { specific := some state, world := r.2 })

/-- The function `vmod_get_integer_reply` (macro `VMOD_GET_FOO_REPLY` with return
type `int`, field `integer` and fallback 0). -/
def vmod_get_integer_reply (env : Env) (sp : sess) (config : vcl_priv_t) (t : Thread) :
    Int × Thread :=
  let r := get_thread_state env sp config false t
  let state := r.1
  (match state.reply with
   | some reply =>
     if reply.type = REDIS_REPLY_INTEGER then int_of_long_long reply.integer else 0
   | none => 0,
   { specific := some state, world := r.2 })

/-- The function `vmod_get_array_reply_length` (lines 347-357); the `size_t`
count is returned as an `int`. -/
def vmod_get_array_reply_length (env : Env) (sp : sess) (config : vcl_priv_t) (t : Thread) :
    Int × Thread :=
  let r := get_thread_state env sp config false t
  let state := r.1
  (match state.reply with
   | some reply =>
     if reply.type = REDIS_REPLY_ARRAY then int_of_size_t reply.elements else 0
   | none => 0,
   { specific := some state, world := r.2 })

/-- The read `reply->element[index]` with an `int` index: defined inside the
array only. -/
def element_at (reply : redisReply) (index : Int) : Except Fault redisReply :=
  if 0 ≤ index then
    match reply.element.get? index.toNat with
    | some e => .ok e
    | none => .error Fault.out_of_bounds
  else .error Fault.out_of_bounds

/-- The function `vmod_get_array_reply_value` (lines 363-376).  The comparison
`index < state->reply->elements` is made in `size_t`. -/
def vmod_get_array_reply_value (env : Env) (sp : sess) (config : vcl_priv_t) (index : Int)
    (t : Thread) : Except Fault (Option String) × Thread :=
  let r := get_thread_state env sp config false t
  let state := r.1
  (match state.reply with
   | some reply =>
     if reply.type = REDIS_REPLY_ARRAY ∧ size_t_of_int index < reply.elements then
       (element_at reply index).map get_reply
     else .ok none
   | none => .ok none,
   { specific := some state, world := r.2 })

/-! ## The calls of the public surface -/

/-- The calls that bind to the session unconditionally: every call of the
public surface other than `redis.command`.  `reply_is upper` stands for the six
`vmod_reply_is_*` and `get_str_reply upper` for the three string getters. -/
inductive Call where
  | push (arg : Option String)
  | execute
  | reply_is (upper : Int)
  | get_reply
  | get_str_reply (upper : Int)
  | get_integer_reply
  | get_array_reply_length
  | get_array_reply_value (index : Int)
  | free

/-- What a call hands back to the request. -/
inductive Value where
  | void
  | bool (b : Bool)
  | string (s : Option String)
  | int (i : Int)
  | fault (f : Fault)

/-- The value of `vmod_get_array_reply_value` as a `Value`. -/
def Value.of_except : Except Fault (Option String) → Value
  | .ok s => Value.string s
  | .error f => Value.fault f

/-- Run one call for the request `sp`. -/
def Call.run (env : Env) (sp : sess) (config : vcl_priv_t) : Call → Thread → Value × Thread
  | .push arg, t => (Value.void, vmod_push env sp config arg t)
  | .execute, t => (Value.void, vmod_execute env sp config t)
  | .reply_is upper, t =>
    (Value.bool (vmod_reply_is upper env sp config t).1, (vmod_reply_is upper env sp config t).2)
  | .get_reply, t =>
    (Value.string (vmod_get_reply env sp config t).1, (vmod_get_reply env sp config t).2)
  | .get_str_reply upper, t =>
    (Value.string (vmod_get_str_reply upper env sp config t).1,
     (vmod_get_str_reply upper env sp config t).2)
  | .get_integer_reply, t =>
    (Value.int (vmod_get_integer_reply env sp config t).1,
     (vmod_get_integer_reply env sp config t).2)
  | .get_array_reply_length, t =>
    (Value.int (vmod_get_array_reply_length env sp config t).1,
     (vmod_get_array_reply_length env sp config t).2)
  | .get_array_reply_value index, t =>
    (Value.of_except (vmod_get_array_reply_value env sp config index t).1,
     (vmod_get_array_reply_value env sp config index t).2)
  | .free, t => (Value.void, vmod_free env sp config t)

/-! ## Observations -/

/-- Observation: the command pending for the request `sp`; a state last
touched for another request holds nothing for `sp`. -/
def pending_command (sp : sess) (t : Thread) : List String :=
  match t.specific with
  | some state => if state.xid = sp.xid ∧ state.id = sp.id then state.argv else []
  | none => []

/-- Observation: the reply stored for the request `sp`. -/
def stored_reply (sp : sess) (t : Thread) : Option redisReply :=
  match t.specific with
  | some state => if state.xid = sp.xid ∧ state.id = sp.id then state.reply else none
  | none => none

/-- The state a change of request identity leaves: command and reply dropped,
the identity of `sp` recorded. -/
def flushed_for (sp : sess) (state : thread_state) : thread_state :=
  { state with xid := sp.xid, id := sp.id, argv := [], reply := none }

/-- The record `vmod_push` logs when it refuses a value. -/
def push_failure : LogEntry :=
  { func := "vmod_push", message := "Failed to push Redis argument", args := [] }

/-! ## Sample data -/

/-- A transport that connects, answers every EVALSHA with NOSCRIPT and every
other command with the integer 1. -/
def sample_env : Env :=
  { redisConnectWithTimeout := fun _ _ => (0, ""),
    redisCommandArgv := fun _ _ argv =>
      if argv.head? = some "EVALSHA" then
        (some (redisReply.mk REDIS_REPLY_ERROR 0 "NOSCRIPT No matching script" []), 0, "")
      else (some (redisReply.mk REDIS_REPLY_INTEGER 1 "" []), 0, ""),
    mhash := fun script i => script.length + i,
    heap_after := fun _ _ => "" }

/-- A transport like `sample_env` whose server knows every script. -/
def cached_env : Env :=
  { sample_env with
    redisCommandArgv := fun _ _ _ => (some (redisReply.mk REDIS_REPLY_INTEGER 1 "" []), 0, "") }

/-- The default configuration of `init_function`. -/
def sample_config : vcl_priv_t := { host := "127.0.0.1", port := 6379, tv_sec := 0, tv_usec := 500000 }

/-- An untouched trace. -/
def empty_world : World := { attempts := 0, freed := [], sent := [], log := [] }

/-- A worker thread that never called the module. -/
def fresh_thread : Thread := { specific := none, world := empty_world }

/-- A request. -/
def request_a : sess := { xid := 1001, id := 7 }

/-- A later request served by the same thread. -/
def request_b : sess := { xid := 1002, id := 7 }

/-- An open, error-free connection. -/
def sample_context : redisContext := { id := 0, err := 0, errstr := "" }

/-- A thread in request `request_a` holding `sample_context`, the pending
command `argv` and the reply `reply`. -/
def sample_thread (argv : List String) (reply : Option redisReply) : Thread :=
  { specific := some { xid := 1001, id := 7, context := some sample_context,
                       argv := argv, reply := reply },
    world := { attempts := 1, freed := [], sent := [], log := [] } }

/-- An array reply of 2^31 nil replies. -/
def big_array_reply : redisReply :=
  redisReply.mk REDIS_REPLY_ARRAY 0 "" (List.replicate 2147483648 (redisReply.mk REDIS_REPLY_NIL 0 "" []))

/-- The array reply to `LRANGE` of a list holding `a`, a nil and `7`. -/
def small_array_reply : redisReply :=
  redisReply.mk REDIS_REPLY_ARRAY 0 ""
    [redisReply.mk REDIS_REPLY_STRING 0 "a" [], redisReply.mk REDIS_REPLY_NIL 0 "" [],
     redisReply.mk REDIS_REPLY_INTEGER 7 "" []]

/-- What a call must leave of a thread `t` whose stored connection `c0` was
flagged, given the error code `connect_err` of the connection attempt: one
attempt more than before, `c0` freed, every command handed to the transport
during the call sent on the connection made by that attempt with its error
flag clear; when the attempt failed nothing sent and no connection stored,
otherwise the connection made by that attempt stored. -/
def reconnected_once (t : Thread) (c0 : redisContext) (connect_err : Int) (r : Thread) : Prop :=
  r.world.attempts = t.world.attempts + 1 ∧
  c0.id ∈ r.world.freed ∧
  (∃ new, r.world.sent = t.world.sent ++ new ∧
    ∀ e ∈ new, e.context.id = t.world.attempts ∧ e.context.err = 0 ∧ e.context.id ≠ c0.id) ∧
  (connect_err ≠ 0 →
    r.world.sent = t.world.sent ∧ ∃ st, r.specific = some st ∧ st.context = none) ∧
  (connect_err = 0 →
    ∃ st c, r.specific = some st ∧ st.context = some c ∧ c.id = t.world.attempts)

/-- A thread in request `request_a` whose stored connection reported an error
during the last command. -/
def flagged_thread : Thread :=
  { specific := some { xid := 1001, id := 7,
                       context := some { id := 0, err := 3, errstr := "Server closed the connection" },
                       argv := ["GET", "k"], reply := none },
    world := { attempts := 1, freed := [], sent := [], log := [] } }

/-! ## The configuration -/

/-- Conversion of an `int` to `unsigned`. -/
def unsigned_of_int (i : Int) : Nat := (i % 2 ^ 32).toNat

/-- The function `new_vcl_priv` (lines 392-406).  `timeout` is an `int`; `/` and
`%` truncate toward zero. -/
def new_vcl_priv (host : String) (port : Int) (timeout : Int) : vcl_priv_t :=
  { host := host, port := unsigned_of_int port,
    tv_sec := timeout.tdiv 1000, tv_usec := timeout.tmod 1000 * 1000 }

/-- Lines 83-86 of `init_function`: the configuration slot of the VCL is
filled with the defaults when it is empty. -/
def init_function (priv : Option vcl_priv_t) : Option vcl_priv_t :=
  match priv with
  | none => some (new_vcl_priv "127.0.0.1" 6379 500)
  | some p => some p

/-- The function `vmod_init` (lines 96-106): the slot receives a new
configuration, the old one is freed. -/
def vmod_init (host : String) (port : Int) (timeout : Int) (_priv : Option vcl_priv_t) :
    Option vcl_priv_t :=
  some (new_vcl_priv host port timeout)

/-- An integer reply whose value is past the range of `int`: 2^31. -/
def wide_integer_reply : redisReply := redisReply.mk REDIS_REPLY_INTEGER 2147483648 "" []

/-! ## The buffer of `sha1` -/

/-- A block of memory obtained from `malloc`: its bytes, `none` where nothing
has been written. -/
abbrev Block := List (Option Char)

/-- A write of one `char` at offset `i` of a block. -/
def Block.store (block : Block) (i : Nat) (v : Char) : Except Fault Block :=
  if i < block.length then .ok (block.set i (some v)) else .error Fault.out_of_bounds

/-- The call `sprintf(ptr, "%.2x", b)` for an `unsigned char` `b`, `ptr` at
offset `ptr` of the block: two digits and the terminating NUL. -/
def sprintf_hex2 (block : Block) (ptr : Nat) (b : Nat) : Except Fault Block :=
  match block.store ptr (hex_digit (b / 16)) with
  | .error f => .error f
  | .ok b1 =>
    match b1.store (ptr + 1) (hex_digit (b % 16)) with
    | .error f => .error f
    | .ok b2 => b2.store (ptr + 2) (Char.ofNat 0)

/-- Lines 559-565 of `sha1` on a block of `size` bytes: iterations `i`,
`i + 1`, ... up to `block_size`, with `ptr = result + 2 * i`. -/
def encode_from (env : Env) (script : String) (fuel : Nat) (i : Nat) (block : Block) :
    Except Fault Block :=
  match fuel with
  | 0 => .ok block
  | fuel + 1 =>
    match sprintf_hex2 block (2 * i) (env.mhash script i % 256) with
    | .error f => .error f
    | .ok b1 => encode_from env script fuel (i + 1) b1

/-- Lines 559-565 of `sha1` with the block as it is allocated there,
`malloc(block_size * 2)`. -/
def sha1_block (env : Env) (script : String) : Except Fault Block :=
  encode_from env script block_size 0 (List.replicate (block_size * 2) none)

/-- The property of hiredis that `redisCommandArgv` returns a reply only when
no error was raised on the context. -/
def reply_without_error (env : Env) : Prop :=
  ∀ w c argv, (env.redisCommandArgv w c argv).1 ≠ none → (env.redisCommandArgv w c argv).2.1 = 0

/-- A thread state that stores a reply holds the connection it came over, with
its error flag clear. -/
def reply_has_connection (t : Thread) : Prop :=
  ∀ st, t.specific = some st → st.reply ≠ none → ∃ c, st.context = some c ∧ c.err = 0

/-- A transport like `sample_env` whose server cannot be reached. -/
def down_env : Env :=
  { sample_env with redisConnectWithTimeout := fun _ _ => (1, "Connection refused") }

/-- A thread in request `request_a` that holds `GET k` and no connection. -/
def unconnected_thread : Thread :=
  { specific := some { xid := 1001, id := 7, context := none, argv := ["GET", "k"],
                       reply := none },
    world := { attempts := 1, freed := [0], sent := [], log := [] } }

/-- A string reply whose payload holds a NUL byte: `a`, NUL, `b`. -/
def nul_reply : redisReply :=
  redisReply.mk REDIS_REPLY_STRING 0 (String.mk ['a', Char.ofNat 0, 'b']) []

/-- A transport like `sample_env` on a heap where a byte that is not zero, here
`!`, lies behind the block of `sha1` when the command is handed over. -/
def overrun_env : Env := { sample_env with heap_after := fun _ _ => "!" }

/-- A transport like `cached_env` on the heap of `overrun_env`. -/
def overrun_cached_env : Env := { cached_env with heap_after := fun _ _ => "!" }

/-! ## Lemmas on `get_thread_state` -/

theorem check_request_xid (sp : sess) (flush : Bool) (r : thread_state) :
    (check_request sp flush r).xid = sp.xid := by
  unfold check_request
  by_cases h : r.xid ≠ sp.xid ∨ r.id ≠ sp.id
  · simp [h]
  · have h1 : r.xid = sp.xid := by by_contra hx; exact h (Or.inl hx)
    have h2 : r.id = sp.id := by by_contra hx; exact h (Or.inr hx)
    cases flush <;> simp [h1, h2]

theorem check_request_id (sp : sess) (flush : Bool) (r : thread_state) :
    (check_request sp flush r).id = sp.id := by
  unfold check_request
  by_cases h : r.xid ≠ sp.xid ∨ r.id ≠ sp.id
  · simp [h]
  · have h1 : r.xid = sp.xid := by by_contra hx; exact h (Or.inl hx)
    have h2 : r.id = sp.id := by by_contra hx; exact h (Or.inr hx)
    cases flush <;> simp [h1, h2]

theorem check_request_context (sp : sess) (flush : Bool) (r : thread_state) :
    (check_request sp flush r).context = r.context := by
  unfold check_request
  by_cases h : r.xid ≠ sp.xid ∨ r.id ≠ sp.id <;> cases flush <;> simp [h]

theorem check_request_flush (sp : sess) (r : thread_state) :
    (check_request sp true r).argv = [] ∧ (check_request sp true r).reply = none := by
  unfold check_request
  by_cases h : r.xid ≠ sp.xid ∨ r.id ≠ sp.id <;> simp [h]

theorem check_request_new (sp : sess) (flush : Bool) (r : thread_state)
    (h : r.xid ≠ sp.xid ∨ r.id ≠ sp.id) :
    (check_request sp flush r).argv = [] ∧ (check_request sp flush r).reply = none := by
  unfold check_request
  simp [h]

theorem check_request_same (sp : sess) (r : thread_state)
    (hx : r.xid = sp.xid) (hi : r.id = sp.id) :
    check_request sp false r = r := by
  unfold check_request
  simp [hx, hi]

theorem create_context_fields (env : Env) (config : vcl_priv_t) (r : thread_state) (w : World) :
    (create_context env config r w).1.xid = r.xid ∧
    (create_context env config r w).1.id = r.id ∧
    (create_context env config r w).1.argv = r.argv ∧
    (create_context env config r w).1.reply = r.reply ∧
    (create_context env config r w).2.sent = w.sent := by
  unfold create_context
  cases hc : r.context with
  | some c => simp
  | none =>
    by_cases he : (env.redisConnectWithTimeout w config).1 = 0
    · simp [he]
    · simp [he, REDIS_LOG]

theorem check_state_sent (sp : sess) (t : Thread) :
    (check_state sp t).2.sent = t.world.sent := by
  unfold check_state
  cases hs : t.specific with
  | none => simp
  | some st =>
    obtain ⟨xid, id, ctx, argv, reply⟩ := st
    cases ctx with
    | none => simp
    | some c => by_cases he : c.err = 0 <;> simp [he]

theorem check_state_some (sp : sess) (t : Thread) (st : thread_state)
    (hs : t.specific = some st) :
    (check_state sp t).1.xid = st.xid ∧ (check_state sp t).1.id = st.id ∧
    (check_state sp t).1.argv = st.argv ∧ (check_state sp t).1.reply = st.reply := by
  unfold check_state
  rw [hs]
  obtain ⟨xid, id, ctx, argv, reply⟩ := st
  cases ctx with
  | none => simp
  | some c => by_cases he : c.err = 0 <;> simp [he]

theorem check_state_none (sp : sess) (t : Thread) (hs : t.specific = none) :
    (check_state sp t).1.xid = sp.xid ∧ (check_state sp t).1.id = sp.id ∧
    (check_state sp t).1.argv = [] ∧ (check_state sp t).1.reply = none := by
  unfold check_state
  rw [hs]
  simp

theorem get_thread_state_sent (env : Env) (sp : sess) (config : vcl_priv_t) (flush : Bool)
    (t : Thread) : (get_thread_state env sp config flush t).2.sent = t.world.sent := by
  unfold get_thread_state
  simp [(create_context_fields env config _ _).2.2.2.2, check_state_sent]

theorem get_thread_state_xid (env : Env) (sp : sess) (config : vcl_priv_t) (flush : Bool)
    (t : Thread) : (get_thread_state env sp config flush t).1.xid = sp.xid := by
  unfold get_thread_state
  exact check_request_xid _ _ _

theorem get_thread_state_id (env : Env) (sp : sess) (config : vcl_priv_t) (flush : Bool)
    (t : Thread) : (get_thread_state env sp config flush t).1.id = sp.id := by
  unfold get_thread_state
  exact check_request_id _ _ _

theorem get_thread_state_flush (env : Env) (sp : sess) (config : vcl_priv_t)
    (t : Thread) : (get_thread_state env sp config true t).1.argv = [] ∧
      (get_thread_state env sp config true t).1.reply = none := by
  unfold get_thread_state
  exact check_request_flush _ _

theorem get_thread_state_argv (env : Env) (sp : sess) (config : vcl_priv_t)
    (t : Thread) : (get_thread_state env sp config false t).1.argv = pending_command sp t := by
  unfold get_thread_state pending_command
  obtain ⟨h1, h2, h3, -, -⟩ := create_context_fields env config (check_state sp t).1 (check_state sp t).2
  cases hs : t.specific with
  | none =>
    obtain ⟨k1, k2, k3, -⟩ := check_state_none sp t hs
    simp only []
    rw [check_request_same sp _ (h1.trans k1) (h2.trans k2), h3, k3]
  | some st =>
    obtain ⟨k1, k2, k3, -⟩ := check_state_some sp t st hs
    simp only []
    by_cases hid : st.xid = sp.xid ∧ st.id = sp.id
    · rw [check_request_same sp _ (h1.trans (k1.trans hid.1)) (h2.trans (k2.trans hid.2)), h3, k3]
      simp [hid]
    · rw [if_neg hid]
      apply (check_request_new sp false _ _).1
      rw [h1, h2, k1, k2]
      by_contra hcon
      apply hid
      constructor
      · by_contra hx; exact hcon (Or.inl hx)
      · by_contra hx; exact hcon (Or.inr hx)

theorem get_thread_state_reply (env : Env) (sp : sess) (config : vcl_priv_t)
    (t : Thread) : (get_thread_state env sp config false t).1.reply = stored_reply sp t := by
  unfold get_thread_state stored_reply
  obtain ⟨h1, h2, -, h3, -⟩ := create_context_fields env config (check_state sp t).1 (check_state sp t).2
  cases hs : t.specific with
  | none =>
    obtain ⟨k1, k2, -, k3⟩ := check_state_none sp t hs
    simp only []
    rw [check_request_same sp _ (h1.trans k1) (h2.trans k2), h3, k3]
  | some st =>
    obtain ⟨k1, k2, -, k3⟩ := check_state_some sp t st hs
    simp only []
    by_cases hid : st.xid = sp.xid ∧ st.id = sp.id
    · rw [check_request_same sp _ (h1.trans (k1.trans hid.1)) (h2.trans (k2.trans hid.2)), h3, k3]
      simp [hid]
    · rw [if_neg hid]
      apply (check_request_new sp false _ _).2
      rw [h1, h2, k1, k2]
      by_contra hcon
      apply hid
      constructor
      · by_contra hx; exact hcon (Or.inl hx)
      · by_contra hx; exact hcon (Or.inr hx)

theorem create_context_healthy (env : Env) (config : vcl_priv_t) (r : thread_state) (w : World)
    (c : redisContext) (hr : ∀ c0, r.context = some c0 → c0.err = 0)
    (h : (create_context env config r w).1.context = some c) : c.err = 0 := by
  unfold create_context at h
  obtain ⟨xid, id, ctx, argv, reply⟩ := r
  cases ctx with
  | some c0 =>
    simp at h
    rw [← h]
    exact hr c0 rfl
  | none =>
    by_cases he : (env.redisConnectWithTimeout w config).1 = 0
    · simp [he] at h
      rw [← h]
    · simp [he] at h

theorem check_state_healthy (sp : sess) (t : Thread) (c : redisContext)
    (h : (check_state sp t).1.context = some c) : c.err = 0 := by
  unfold check_state at h
  cases hs : t.specific with
  | none => rw [hs] at h; simp at h
  | some st =>
    rw [hs] at h
    obtain ⟨xid, id, ctx, argv, reply⟩ := st
    cases ctx with
    | none => simp at h
    | some c0 =>
      by_cases he : c0.err = 0
      · simp [he] at h
        rw [← h]; exact he
      · simp [he] at h

theorem get_thread_state_healthy (env : Env) (sp : sess) (config : vcl_priv_t) (flush : Bool)
    (t : Thread) (c : redisContext)
    (h : (get_thread_state env sp config flush t).1.context = some c) : c.err = 0 := by
  unfold get_thread_state at h
  rw [check_request_context] at h
  exact create_context_healthy env config _ _ c (fun c0 h0 => check_state_healthy sp t c0 h0) h

/-! ## Lemmas on the command builder -/

theorem pending_command_of (sp : sess) (st : thread_state) (w : World)
    (hx : st.xid = sp.xid) (hi : st.id = sp.id) :
    pending_command sp { specific := some st, world := w } = st.argv := by
  simp [pending_command, hx, hi]

theorem stored_reply_of (sp : sess) (st : thread_state) (w : World)
    (hx : st.xid = sp.xid) (hi : st.id = sp.id) :
    stored_reply sp { specific := some st, world := w } = st.reply := by
  simp [stored_reply, hx, hi]

theorem vmod_command_eq (env : Env) (sp : sess) (config : vcl_priv_t) (name : String)
    (t : Thread) (hname : name.length > 0) :
    vmod_command env sp config (some name) t =
      { specific := some { (get_thread_state env sp config true t).1 with
                            argv := [String.mk (upper_loop name.toList)] },
        world := (get_thread_state env sp config true t).2 } := by
  simp [vmod_command, hname]

theorem vmod_command_pending (env : Env) (sp : sess) (config : vcl_priv_t) (name : String)
    (t : Thread) (hname : name.length > 0) :
    pending_command sp (vmod_command env sp config (some name) t)
      = [String.mk (upper_loop name.toList)] := by
  rw [vmod_command_eq env sp config name t hname, pending_command_of]
  · exact get_thread_state_xid env sp config true t
  · exact get_thread_state_id env sp config true t

theorem vmod_command_sent (env : Env) (sp : sess) (config : vcl_priv_t) (name : Option String)
    (t : Thread) : (vmod_command env sp config name t).world.sent = t.world.sent := by
  unfold vmod_command
  cases name with
  | none => rfl
  | some n =>
    by_cases h : n.length > 0
    · simp [h, get_thread_state_sent]
    · simp [h]

theorem vmod_push_ok (env : Env) (sp : sess) (config : vcl_priv_t) (arg : Option String)
    (t : Thread) (h1 : 1 ≤ (pending_command sp t).length)
    (h2 : (pending_command sp t).length < MAX_REDIS_COMMAND_ARGS) :
    vmod_push env sp config arg t =
      { specific := some { (get_thread_state env sp config false t).1 with
                            argv := pending_command sp t ++ [arg.getD ""] },
        world := (get_thread_state env sp config false t).2 } := by
  unfold vmod_push
  simp only [thread_state.argc, get_thread_state_argv]
  rw [if_pos ⟨h1, h2⟩]
  cases arg <;> rfl

theorem vmod_push_fail (env : Env) (sp : sess) (config : vcl_priv_t) (arg : Option String)
    (t : Thread)
    (h : (pending_command sp t).length = 0 ∨
      MAX_REDIS_COMMAND_ARGS ≤ (pending_command sp t).length) :
    vmod_push env sp config arg t =
      { specific := some (get_thread_state env sp config false t).1,
        world := REDIS_LOG (get_thread_state env sp config false t).2
          "vmod_push" "Failed to push Redis argument" [] } := by
  unfold vmod_push
  simp only [thread_state.argc, get_thread_state_argv]
  rw [if_neg]
  intro hc
  rcases h with h | h <;> omega

theorem vmod_push_sent (env : Env) (sp : sess) (config : vcl_priv_t) (arg : Option String)
    (t : Thread) : (vmod_push env sp config arg t).world.sent = t.world.sent := by
  by_cases h : 1 ≤ (pending_command sp t).length ∧
      (pending_command sp t).length < MAX_REDIS_COMMAND_ARGS
  · rw [vmod_push_ok env sp config arg t h.1 h.2]
    exact get_thread_state_sent env sp config false t
  · rw [vmod_push_fail env sp config arg t (by omega)]
    simp [REDIS_LOG, get_thread_state_sent]

theorem vmod_push_pending (env : Env) (sp : sess) (config : vcl_priv_t) (arg : Option String)
    (t : Thread) :
    pending_command sp (vmod_push env sp config arg t) =
      if 1 ≤ (pending_command sp t).length ∧
          (pending_command sp t).length < MAX_REDIS_COMMAND_ARGS
      then pending_command sp t ++ [arg.getD ""] else pending_command sp t := by
  by_cases h : 1 ≤ (pending_command sp t).length ∧
      (pending_command sp t).length < MAX_REDIS_COMMAND_ARGS
  · rw [vmod_push_ok env sp config arg t h.1 h.2, if_pos h, pending_command_of]
    · exact get_thread_state_xid env sp config false t
    · exact get_thread_state_id env sp config false t
  · rw [vmod_push_fail env sp config arg t (by omega), if_neg h, pending_command_of]
    · exact get_thread_state_argv env sp config t
    · exact get_thread_state_xid env sp config false t
    · exact get_thread_state_id env sp config false t

/-- The pushes of a list of values, in order. -/
theorem push_all_pending (env : Env) (sp : sess) (config : vcl_priv_t)
    (args : List (Option String)) :
    ∀ t : Thread, 1 ≤ (pending_command sp t).length →
      (pending_command sp t).length ≤ MAX_REDIS_COMMAND_ARGS →
      pending_command sp (args.foldl (fun t a => vmod_push env sp config a t) t) =
        (pending_command sp t ++ args.map (fun a => a.getD "")).take MAX_REDIS_COMMAND_ARGS := by
  induction args with
  | nil =>
    intro t _ h2
    simp [List.take_of_length_le h2]
  | cons a rest ih =>
    intro t h1 h2
    simp only [List.foldl_cons, List.map_cons]
    have hp := vmod_push_pending env sp config a t
    by_cases h : (pending_command sp t).length < MAX_REDIS_COMMAND_ARGS
    · rw [if_pos ⟨h1, h⟩] at hp
      rw [ih (vmod_push env sp config a t) (by rw [hp]; simp) (by rw [hp]; simp; omega), hp]
      simp
    · rw [if_neg (by omega)] at hp
      rw [ih (vmod_push env sp config a t) (by rw [hp]; exact h1) (by rw [hp]; exact h2), hp]
      have hlen : (pending_command sp t).length = MAX_REDIS_COMMAND_ARGS := by omega
      rw [List.take_append_of_le_length (by omega), List.take_append_of_le_length (by omega)]

/-! ## Lemmas on the execution protocol -/

theorem check_reply_sent (state : thread_state) (c : redisContext) (w : World) :
    (check_reply state c w).sent = w.sent := by
  unfold check_reply
  by_cases he : c.err = 0
  · cases hr : state.reply with
    | none => simp [he, REDIS_LOG]
    | some r => by_cases ht : r.type = REDIS_REPLY_ERROR <;> simp [he, ht, REDIS_LOG]
  · simp [he, REDIS_LOG]

theorem try_evalsha_plain (env : Env) (state : thread_state) (c : redisContext) (w : World)
    (verb : String) (rest : List String) (hargv : state.argv = verb :: rest)
    (hplain : ¬(verb = "EVAL" ∧ rest ≠ [])) :
    try_evalsha env state c w = (state, c, w, false) := by
  unfold try_evalsha
  rw [if_neg]
  rw [thread_state.argc, hargv]
  intro h
  apply hplain
  obtain ⟨h1, h2⟩ := h
  simp at h1 h2
  refine ⟨h1, ?_⟩
  intro hr
  rw [hr] at h2
  simp at h2

theorem try_evalsha_eval (env : Env) (state : thread_state) (c : redisContext) (w : World)
    (s : String) (args : List String) (hargv : state.argv = "EVAL" :: s :: args) :
    try_evalsha env state c w =
      if is_noscript
          (send_command env { state with argv := "EVALSHA" :: sha1 env w s :: args } c w).2.1
          (send_command env { state with argv := "EVALSHA" :: sha1 env w s :: args } c w).1.reply
      then
        ({ (send_command env { state with argv := "EVALSHA" :: sha1 env w s :: args } c w).1 with
            argv := "EVAL" :: s :: args },
         (send_command env { state with argv := "EVALSHA" :: sha1 env w s :: args } c w).2.1,
         (send_command env { state with argv := "EVALSHA" :: sha1 env w s :: args } c w).2.2,
         false)
      else
        ((send_command env { state with argv := "EVALSHA" :: sha1 env w s :: args } c w).1,
         (send_command env { state with argv := "EVALSHA" :: sha1 env w s :: args } c w).2.1,
         (send_command env { state with argv := "EVALSHA" :: sha1 env w s :: args } c w).2.2,
         true) := by
  unfold try_evalsha
  rw [if_pos (by simp [thread_state.argc, hargv])]
  simp only [send_command, hargv, List.getD_cons_succ, List.getD_cons_zero, List.set_cons_zero,
    List.set_cons_succ]

theorem vmod_execute_some (env : Env) (sp : sess) (config : vcl_priv_t) (t : Thread)
    (c : redisContext) (hctx : (get_thread_state env sp config false t).1.context = some c)
    (hargc : 1 ≤ (pending_command sp t).length) :
    vmod_execute env sp config t =
      execute_body env (get_thread_state env sp config false t).1 c
        (get_thread_state env sp config false t).2 := by
  unfold vmod_execute
  simp only [hctx, thread_state.argc, get_thread_state_argv]
  rw [if_pos (by omega)]

theorem vmod_execute_idle (env : Env) (sp : sess) (config : vcl_priv_t) (t : Thread)
    (h : (get_thread_state env sp config false t).1.context = none ∨ pending_command sp t = []) :
    vmod_execute env sp config t =
      { specific := some (get_thread_state env sp config false t).1,
        world := (get_thread_state env sp config false t).2 } := by
  unfold vmod_execute
  cases hc : (get_thread_state env sp config false t).1.context with
  | none => simp [hc]
  | some c =>
    rcases h with h | h
    · rw [hc] at h; cases h
    · simp [hc, thread_state.argc, get_thread_state_argv, h]

theorem execute_body_plain (env : Env) (state : thread_state) (c : redisContext) (w : World)
    (verb : String) (rest : List String) (hargv : state.argv = verb :: rest)
    (hplain : ¬(verb = "EVAL" ∧ rest ≠ [])) :
    execute_body env state c w =
      { specific := some (send_command env state c w).1,
        world := check_reply (send_command env state c w).1 (send_command env state c w).2.1
          (send_command env state c w).2.2 } := by
  unfold execute_body
  rw [try_evalsha_plain env state c w verb rest hargv hplain]
  simp

theorem execute_body_noscript (env : Env) (state : thread_state) (c : redisContext) (w : World)
    (s : String) (args : List String) (hargv : state.argv = "EVAL" :: s :: args)
    (hno : is_noscript
      (send_command env { state with argv := "EVALSHA" :: sha1 env w s :: args } c w).2.1
      (send_command env { state with argv := "EVALSHA" :: sha1 env w s :: args } c w).1.reply
        = true) :
    execute_body env state c w =
      { specific := some (send_command env
          { (send_command env { state with argv := "EVALSHA" :: sha1 env w s :: args } c w).1 with
            argv := "EVAL" :: s :: args }
          (send_command env { state with argv := "EVALSHA" :: sha1 env w s :: args } c w).2.1
          (send_command env { state with argv := "EVALSHA" :: sha1 env w s :: args } c w).2.2).1,
        world := check_reply
          (send_command env
            { (send_command env { state with argv := "EVALSHA" :: sha1 env w s :: args } c w).1 with
              argv := "EVAL" :: s :: args }
            (send_command env { state with argv := "EVALSHA" :: sha1 env w s :: args } c w).2.1
            (send_command env { state with argv := "EVALSHA" :: sha1 env w s :: args } c w).2.2).1
          (send_command env
            { (send_command env { state with argv := "EVALSHA" :: sha1 env w s :: args } c w).1 with
              argv := "EVAL" :: s :: args }
            (send_command env { state with argv := "EVALSHA" :: sha1 env w s :: args } c w).2.1
            (send_command env { state with argv := "EVALSHA" :: sha1 env w s :: args } c w).2.2).2.1
          (send_command env
            { (send_command env { state with argv := "EVALSHA" :: sha1 env w s :: args } c w).1 with
              argv := "EVAL" :: s :: args }
            (send_command env { state with argv := "EVALSHA" :: sha1 env w s :: args } c w).2.1
            (send_command env { state with argv := "EVALSHA" :: sha1 env w s :: args } c w).2.2).2.2
      } := by
  unfold execute_body
  rw [try_evalsha_eval env state c w s args hargv, if_pos hno]
  simp

theorem execute_body_done (env : Env) (state : thread_state) (c : redisContext) (w : World)
    (s : String) (args : List String) (hargv : state.argv = "EVAL" :: s :: args)
    (hno : is_noscript
      (send_command env { state with argv := "EVALSHA" :: sha1 env w s :: args } c w).2.1
      (send_command env { state with argv := "EVALSHA" :: sha1 env w s :: args } c w).1.reply
        = false) :
    execute_body env state c w =
      { specific := some
          (send_command env { state with argv := "EVALSHA" :: sha1 env w s :: args } c w).1,
        world := check_reply
          (send_command env { state with argv := "EVALSHA" :: sha1 env w s :: args } c w).1
          (send_command env { state with argv := "EVALSHA" :: sha1 env w s :: args } c w).2.1
          (send_command env { state with argv := "EVALSHA" :: sha1 env w s :: args } c w).2.2 } := by
  unfold execute_body
  rw [try_evalsha_eval env state c w s args hargv, if_neg (by simp [hno])]
  simp

/-! ## Further lemmas -/

theorem send_command_fields (env : Env) (state : thread_state) (c : redisContext) (w : World) :
    (send_command env state c w).1.xid = state.xid ∧
    (send_command env state c w).1.id = state.id ∧
    (send_command env state c w).1.argv = state.argv ∧
    (send_command env state c w).1.reply = (env.redisCommandArgv w c state.argv).1 ∧
    (send_command env state c w).2.2.sent = w.sent ++ [{ context := c, argv := state.argv }] := by
  simp [send_command]

theorem is_noscript_iff (c : redisContext) (reply : Option redisReply) :
    is_noscript c reply = true ↔
      c.err = 0 ∧ ∃ r, reply = some r ∧ r.type = REDIS_REPLY_ERROR ∧
        "NOSCRIPT".toList <+: r.str.toList := by
  unfold is_noscript
  cases reply with
  | none => simp
  | some r => simp [List.isPrefixOf_iff_prefix, and_assoc]

theorem vmod_command_reply (env : Env) (sp : sess) (config : vcl_priv_t) (name : String)
    (t : Thread) (hname : name.length > 0) :
    stored_reply sp (vmod_command env sp config (some name) t) = none := by
  rw [vmod_command_eq env sp config name t hname, stored_reply_of]
  · exact (get_thread_state_flush env sp config t).2
  · exact get_thread_state_xid env sp config true t
  · exact get_thread_state_id env sp config true t

theorem vmod_push_refused (env : Env) (sp : sess) (config : vcl_priv_t) (arg : Option String)
    (t : Thread)
    (h : (pending_command sp t).length = 0 ∨
      MAX_REDIS_COMMAND_ARGS ≤ (pending_command sp t).length) :
    pending_command sp (vmod_push env sp config arg t) = pending_command sp t ∧
    (vmod_push env sp config arg t).world.log =
      (get_thread_state env sp config false t).2.log ++ [push_failure] := by
  rw [vmod_push_fail env sp config arg t h]
  constructor
  · rw [pending_command_of]
    · exact get_thread_state_argv env sp config t
    · exact get_thread_state_xid env sp config false t
    · exact get_thread_state_id env sp config false t
  · simp [REDIS_LOG, push_failure]

theorem vmod_free_pending (env : Env) (sp : sess) (config : vcl_priv_t) (t : Thread) :
    pending_command sp (vmod_free env sp config t) = [] := by
  unfold vmod_free
  rw [pending_command_of]
  · exact (get_thread_state_flush env sp config t).1
  · exact get_thread_state_xid env sp config true t
  · exact get_thread_state_id env sp config true t

theorem size_t_of_int_nonneg (i : Int) (h0 : 0 ≤ i) (h1 : i < 2 ^ 31) :
    size_t_of_int i = i.toNat := by
  unfold size_t_of_int
  rw [Int.emod_eq_of_lt h0 (by omega)]

theorem size_t_of_int_neg (i : Int) (h0 : i < 0) (h1 : -2 ^ 31 ≤ i) :
    2 ^ 64 - 2 ^ 31 ≤ size_t_of_int i := by
  unfold size_t_of_int
  omega

theorem int_of_size_t_small (n : Nat) (h : n < 2 ^ 31) : int_of_size_t n = n := by
  unfold int_of_size_t
  omega

theorem vmod_get_array_reply_value_eq (env : Env) (sp : sess) (config : vcl_priv_t)
    (index : Int) (t : Thread) :
    (vmod_get_array_reply_value env sp config index t).1 =
      match stored_reply sp t with
      | some reply =>
        if reply.type = REDIS_REPLY_ARRAY ∧ size_t_of_int index < reply.elements then
          (element_at reply index).map get_reply
        else .ok none
      | none => .ok none := by
  unfold vmod_get_array_reply_value
  simp only [get_thread_state_reply]

theorem vmod_get_array_reply_length_eq (env : Env) (sp : sess) (config : vcl_priv_t)
    (t : Thread) :
    (vmod_get_array_reply_length env sp config t).1 =
      match stored_reply sp t with
      | some reply =>
        if reply.type = REDIS_REPLY_ARRAY then int_of_size_t reply.elements else 0
      | none => 0 := by
  unfold vmod_get_array_reply_length
  simp only [get_thread_state_reply]

theorem big_array_reply_elements : big_array_reply.elements = 2147483648 := by
  unfold big_array_reply redisReply.elements redisReply.element
  exact List.length_replicate _ _

theorem get_thread_state_new_request (env : Env) (sp : sess) (config : vcl_priv_t)
    (flush : Bool) (t : Thread) (st : thread_state) (hs : t.specific = some st)
    (hnew : st.xid ≠ sp.xid ∨ st.id ≠ sp.id) :
    get_thread_state env sp config flush t =
      get_thread_state env sp config flush
        { specific := some (flushed_for sp st), world := t.world } := by
  obtain ⟨spec, w⟩ := t
  simp only at hs
  subst hs
  obtain ⟨xid, id, ctx, argv, reply⟩ := st
  simp only at hnew
  unfold get_thread_state check_state create_context check_request flushed_for
  cases ctx with
  | none =>
    by_cases he : (env.redisConnectWithTimeout w config).1 = 0 <;>
      cases flush <;> simp [he, hnew]
  | some c =>
    by_cases hc : c.err = 0
    · cases flush <;> simp [hc, hnew]
    · by_cases he : (env.redisConnectWithTimeout
          { w with freed := w.freed ++ [c.id] } config).1 = 0 <;>
        cases flush <;> simp [hc, he, hnew]

theorem get_thread_state_empty (env : Env) (sp : sess) (config : vcl_priv_t)
    (flush : Bool) (t : Thread) (h : pending_command sp t = []) (hr : stored_reply sp t = none) :
    (get_thread_state env sp config flush t).1.argv = [] ∧
    (get_thread_state env sp config flush t).1.reply = none := by
  cases flush with
  | true => exact get_thread_state_flush env sp config t
  | false => exact ⟨by rw [get_thread_state_argv, h], by rw [get_thread_state_reply, hr]⟩

/-- What a call leaves when nothing is pending and nothing is stored for the
request. -/
theorem run_on_empty (env : Env) (sp : sess) (config : vcl_priv_t) (call : Call) (t : Thread)
    (h : pending_command sp t = []) (hr : stored_reply sp t = none) :
    (∃ st, (call.run env sp config t).2.specific = some st ∧ st.xid = sp.xid ∧
      st.id = sp.id ∧ st.argv = [] ∧ st.reply = none) ∧
    (call.run env sp config t).2.world.sent = t.world.sent := by
  have hx := get_thread_state_xid env sp config
  have hi := get_thread_state_id env sp config
  have hs := get_thread_state_sent env sp config
  have he := fun f => get_thread_state_empty env sp config f t h hr
  cases call with
  | push arg =>
    simp only [Call.run]
    rw [vmod_push_fail env sp config arg t (Or.inl (by rw [h]; rfl))]
    exact ⟨⟨_, rfl, hx false t, hi false t, (he false).1, (he false).2⟩, by simp [REDIS_LOG, hs]⟩
  | execute =>
    simp only [Call.run]
    rw [vmod_execute_idle env sp config t (Or.inr h)]
    exact ⟨⟨_, rfl, hx false t, hi false t, (he false).1, (he false).2⟩, hs false t⟩
  | reply_is upper =>
    exact ⟨⟨_, rfl, hx false t, hi false t, (he false).1, (he false).2⟩, hs false t⟩
  | get_reply =>
    exact ⟨⟨_, rfl, hx false t, hi false t, (he false).1, (he false).2⟩, hs false t⟩
  | get_str_reply upper =>
    exact ⟨⟨_, rfl, hx false t, hi false t, (he false).1, (he false).2⟩, hs false t⟩
  | get_integer_reply =>
    exact ⟨⟨_, rfl, hx false t, hi false t, (he false).1, (he false).2⟩, hs false t⟩
  | get_array_reply_length =>
    exact ⟨⟨_, rfl, hx false t, hi false t, (he false).1, (he false).2⟩, hs false t⟩
  | get_array_reply_value index =>
    exact ⟨⟨_, rfl, hx false t, hi false t, (he false).1, (he false).2⟩, hs false t⟩
  | free =>
    exact ⟨⟨_, rfl, hx true t, hi true t, (he true).1, (he true).2⟩, hs true t⟩

theorem pending_command_other (sp : sess) (t : Thread) (st : thread_state)
    (hs : t.specific = some st) (hnew : st.xid ≠ sp.xid ∨ st.id ≠ sp.id) :
    pending_command sp t = [] ∧ stored_reply sp t = none := by
  have h : ¬(st.xid = sp.xid ∧ st.id = sp.id) := by
    rintro ⟨h1, h2⟩
    rcases hnew with h | h
    · exact h h1
    · exact h h2
  simp [pending_command, stored_reply, hs, h]

theorem run_new_request (env : Env) (sp : sess) (config : vcl_priv_t) (call : Call)
    (t : Thread) (st : thread_state) (hs : t.specific = some st)
    (hnew : st.xid ≠ sp.xid ∨ st.id ≠ sp.id) :
    call.run env sp config t =
      call.run env sp config { specific := some (flushed_for sp st), world := t.world } := by
  have h := fun f => get_thread_state_new_request env sp config f t st hs hnew
  cases call <;>
    simp only [Call.run, vmod_push, vmod_execute, vmod_reply_is, vmod_get_reply,
      vmod_get_str_reply, vmod_get_integer_reply, vmod_get_array_reply_length,
      vmod_get_array_reply_value, vmod_free, h]

theorem vmod_push_specific (env : Env) (sp : sess) (config : vcl_priv_t) (arg : Option String)
    (t : Thread) :
    ∃ st, (vmod_push env sp config arg t).specific = some st ∧ st.xid = sp.xid ∧
      st.id = sp.id := by
  by_cases h : 1 ≤ (pending_command sp t).length ∧
      (pending_command sp t).length < MAX_REDIS_COMMAND_ARGS
  · rw [vmod_push_ok env sp config arg t h.1 h.2]
    exact ⟨_, rfl, get_thread_state_xid env sp config false t,
      get_thread_state_id env sp config false t⟩
  · rw [vmod_push_fail env sp config arg t (by omega)]
    exact ⟨_, rfl, get_thread_state_xid env sp config false t,
      get_thread_state_id env sp config false t⟩

theorem vmod_get_reply_eq (env : Env) (sp : sess) (config : vcl_priv_t) (t : Thread) :
    (vmod_get_reply env sp config t).1 =
      match stored_reply sp t with
      | some reply => get_reply reply
      | none => none := by
  unfold vmod_get_reply
  simp only [get_thread_state_reply]

theorem check_reply_frame (state : thread_state) (c : redisContext) (w : World) :
    (check_reply state c w).attempts = w.attempts ∧ (check_reply state c w).freed = w.freed := by
  unfold check_reply
  by_cases he : c.err = 0
  · cases hr : state.reply with
    | none => simp [he, REDIS_LOG]
    | some r => by_cases ht : r.type = REDIS_REPLY_ERROR <;> simp [he, ht, REDIS_LOG]
  · simp [he, REDIS_LOG]

/-- The frame of lines 209-273 when run on a context whose error flag is clear. -/
theorem execute_body_frame (env : Env) (state : thread_state) (c : redisContext) (w : World)
    (hc : c.err = 0) :
    (execute_body env state c w).world.attempts = w.attempts ∧
    (execute_body env state c w).world.freed = w.freed ∧
    (∃ new, (execute_body env state c w).world.sent = w.sent ++ new ∧
      ∀ e ∈ new, e.context.id = c.id ∧ e.context.err = 0) ∧
    ∃ st c1, (execute_body env state c w).specific = some st ∧ st.context = some c1 ∧
      c1.id = c.id := by
  by_cases happ : state.argv.head? = some "EVAL" ∧ state.argc ≥ 2
  · have hex : ∃ s args, state.argv = "EVAL" :: s :: args := by
      simp only [thread_state.argc] at happ
      rcases h : state.argv with _ | ⟨verb, _ | ⟨s, args⟩⟩
      · rw [h] at happ; simp at happ
      · rw [h] at happ; simp at happ
      · rw [h] at happ
        have hv : verb = "EVAL" := by simpa using happ.1
        exact ⟨s, args, by rw [hv]⟩
    obtain ⟨s, args, hargv⟩ := hex
    · cases hno : is_noscript
        (send_command env { state with argv := "EVALSHA" :: sha1 env w s :: args } c w).2.1
        (send_command env { state with argv := "EVALSHA" :: sha1 env w s :: args } c w).1.reply with
      | true =>
        rw [execute_body_noscript env _ c w s args hargv hno]
        have h0 := ((is_noscript_iff _ _).1 hno).1
        simp only [send_command] at h0
        refine ⟨by simp [check_reply_frame, send_command],
          by simp [check_reply_frame, send_command],
          ⟨[{ context := c, argv := "EVALSHA" :: sha1 env w s :: args },
            { context :=
                { c with
                  err := (env.redisCommandArgv w c ("EVALSHA" :: sha1 env w s :: args)).2.1,
                  errstr := (env.redisCommandArgv w c ("EVALSHA" :: sha1 env w s :: args)).2.2 },
              argv := "EVAL" :: s :: args }], ?_, ?_⟩, ?_⟩
        · simp [check_reply_sent, send_command]
        · intro e he
          simp only [List.mem_cons, List.mem_singleton, List.not_mem_nil, or_false] at he
          rcases he with he | he
          · rw [he]; exact ⟨rfl, hc⟩
          · rw [he]; exact ⟨rfl, h0⟩
        · exact ⟨_, _, rfl, rfl, rfl⟩
      | false =>
        rw [execute_body_done env _ c w s args hargv hno]
        refine ⟨by simp [check_reply_frame, send_command],
          by simp [check_reply_frame, send_command],
          ⟨[{ context := c, argv := "EVALSHA" :: sha1 env w s :: args }], ?_, ?_⟩, ?_⟩
        · simp [check_reply_sent, send_command]
        · intro e he
          simp only [List.mem_singleton] at he
          rw [he]; exact ⟨rfl, hc⟩
        · exact ⟨_, _, rfl, rfl, rfl⟩
  · have ht : try_evalsha env state c w = (state, c, w, false) := by
      unfold try_evalsha
      rw [if_neg happ]
    unfold execute_body
    rw [ht]
    refine ⟨by simp [check_reply_frame, send_command],
      by simp [check_reply_frame, send_command],
      ⟨[{ context := c, argv := state.argv }], ?_, ?_⟩, ?_⟩
    · simp [check_reply_sent, send_command]
    · intro e he
      simp only [List.mem_singleton] at he
      rw [he]; exact ⟨rfl, hc⟩
    · exact ⟨_, _, rfl, rfl, rfl⟩

theorem get_thread_state_flush_free (env : Env) (sp : sess) (config : vcl_priv_t)
    (flush : Bool) (t : Thread) :
    (get_thread_state env sp config flush t).2 = (get_thread_state env sp config false t).2 ∧
    (get_thread_state env sp config flush t).1.context
      = (get_thread_state env sp config false t).1.context := by
  unfold get_thread_state
  simp only [check_request_context, and_self]

/-- What `get_thread_state` does about a stored connection that is flagged. -/
theorem get_thread_state_flagged (env : Env) (sp : sess) (config : vcl_priv_t) (flush : Bool)
    (t : Thread) (st : thread_state) (c0 : redisContext)
    (hs : t.specific = some st) (hc : st.context = some c0) (herr : c0.err ≠ 0) :
    (get_thread_state env sp config flush t).2.attempts = t.world.attempts + 1 ∧
    c0.id ∈ (get_thread_state env sp config flush t).2.freed ∧
    ((env.redisConnectWithTimeout
        { t.world with freed := t.world.freed ++ [c0.id] } config).1 ≠ 0 →
      (get_thread_state env sp config flush t).1.context = none) ∧
    ((env.redisConnectWithTimeout
        { t.world with freed := t.world.freed ++ [c0.id] } config).1 = 0 →
      ∃ c, (get_thread_state env sp config flush t).1.context = some c ∧
        c.id = t.world.attempts) := by
  obtain ⟨spec, w⟩ := t
  simp only at hs
  subst hs
  obtain ⟨xid, id, ctx, argv, reply⟩ := st
  simp only at hc
  subst hc
  unfold get_thread_state
  rw [check_request_context]
  unfold check_state create_context
  by_cases he : (env.redisConnectWithTimeout
      { w with freed := w.freed ++ [c0.id] } config).1 = 0
  · simp [herr, he]
  · simp [herr, he, REDIS_LOG]

/-- The frame of a call other than `redis.command`, relative to what
`get_thread_state` returned to it. -/
theorem run_frame (env : Env) (sp : sess) (config : vcl_priv_t) (call : Call) (t : Thread) :
    (call.run env sp config t).2.world.attempts
      = (get_thread_state env sp config false t).2.attempts ∧
    (call.run env sp config t).2.world.freed
      = (get_thread_state env sp config false t).2.freed ∧
    (∃ new, (call.run env sp config t).2.world.sent = t.world.sent ++ new ∧
      ∀ e ∈ new, e.context.err = 0 ∧
        ∃ c, (get_thread_state env sp config false t).1.context = some c ∧
          e.context.id = c.id) ∧
    ∃ st, (call.run env sp config t).2.specific = some st ∧
      ((get_thread_state env sp config false t).1.context = none → st.context = none) ∧
      ∀ c, (get_thread_state env sp config false t).1.context = some c →
        ∃ c1, st.context = some c1 ∧ c1.id = c.id := by
  have hsent := get_thread_state_sent env sp config
  have idle : ∀ r : Thread,
      r = { specific := some (get_thread_state env sp config false t).1,
            world := (get_thread_state env sp config false t).2 } →
      r.world.attempts = (get_thread_state env sp config false t).2.attempts ∧
      r.world.freed = (get_thread_state env sp config false t).2.freed ∧
      (∃ new, r.world.sent = t.world.sent ++ new ∧
        ∀ e ∈ new, e.context.err = 0 ∧
          ∃ c, (get_thread_state env sp config false t).1.context = some c ∧
            e.context.id = c.id) ∧
      ∃ st, r.specific = some st ∧
        ((get_thread_state env sp config false t).1.context = none → st.context = none) ∧
        ∀ c, (get_thread_state env sp config false t).1.context = some c →
          ∃ c1, st.context = some c1 ∧ c1.id = c.id := by
    intro r hr
    subst hr
    exact ⟨rfl, rfl, ⟨[], by simp [hsent], by simp⟩, _, rfl, fun h => h, fun c h => ⟨c, h, rfl⟩⟩
  cases call with
  | push arg =>
    simp only [Call.run]
    by_cases h : 1 ≤ (pending_command sp t).length ∧
        (pending_command sp t).length < MAX_REDIS_COMMAND_ARGS
    · rw [vmod_push_ok env sp config arg t h.1 h.2]
      exact ⟨rfl, rfl, ⟨[], by simp [hsent], by simp⟩, _, rfl, fun h => h,
        fun c h => ⟨c, h, rfl⟩⟩
    · rw [vmod_push_fail env sp config arg t (by omega)]
      exact ⟨rfl, rfl, ⟨[], by simp [hsent, REDIS_LOG], by simp⟩, _, rfl, fun h => h,
        fun c h => ⟨c, h, rfl⟩⟩
  | execute =>
    simp only [Call.run]
    cases hctx : (get_thread_state env sp config false t).1.context with
    | none =>
      have h := idle _ (vmod_execute_idle env sp config t (Or.inl hctx))
      rw [hctx] at h
      exact h
    | some c =>
      by_cases hp : pending_command sp t = []
      · have h := idle _ (vmod_execute_idle env sp config t (Or.inr hp))
        rw [hctx] at h
        exact h
      · have hlen : 1 ≤ (pending_command sp t).length := by
          cases hl : pending_command sp t with
          | nil => exact absurd hl hp
          | cons a l => simp
        rw [vmod_execute_some env sp config t c hctx hlen]
        have hc0 := get_thread_state_healthy env sp config false t c hctx
        obtain ⟨f1, f2, ⟨new, f3, f4⟩, st, c1, f5, f6, f7⟩ :=
          execute_body_frame env (get_thread_state env sp config false t).1 c
            (get_thread_state env sp config false t).2 hc0
        refine ⟨f1, f2, ⟨new, by rw [f3, hsent], ?_⟩, st, f5, ?_, ?_⟩
        · intro e he
          exact ⟨(f4 e he).2, c, rfl, (f4 e he).1⟩
        · intro h; cases h
        · intro c2 h2
          cases h2
          exact ⟨c1, f6, f7⟩
  | reply_is upper => exact idle _ rfl
  | get_reply => exact idle _ rfl
  | get_str_reply upper => exact idle _ rfl
  | get_integer_reply => exact idle _ rfl
  | get_array_reply_length => exact idle _ rfl
  | get_array_reply_value index => exact idle _ rfl
  | free =>
    simp only [Call.run, vmod_free]
    obtain ⟨g1, g2⟩ := get_thread_state_flush_free env sp config true t
    exact ⟨by rw [g1], by rw [g1], ⟨[], by simp [hsent], by simp⟩, _, rfl,
      fun h => by rw [g2]; exact h, fun c h => ⟨c, by rw [g2]; exact h, rfl⟩⟩

/-- The plain send of lines 249-255: a pending command to which the EVALSHA
attempt does not apply is handed over once, as it is. -/
theorem vmod_execute_plain (env : Env) (sp : sess) (config : vcl_priv_t)
    (t : Thread) (verb : String) (rest : List String) (c : redisContext)
    (hargv : pending_command sp t = verb :: rest)
    (hplain : verb ≠ "EVAL" ∨ rest = [])
    (hctx : (get_thread_state env sp config false t).1.context = some c) :
    vmod_execute env sp config t =
      { specific := some (send_command env (get_thread_state env sp config false t).1 c
          (get_thread_state env sp config false t).2).1,
        world := check_reply
          (send_command env (get_thread_state env sp config false t).1 c
            (get_thread_state env sp config false t).2).1
          (send_command env (get_thread_state env sp config false t).1 c
            (get_thread_state env sp config false t).2).2.1
          (send_command env (get_thread_state env sp config false t).1 c
            (get_thread_state env sp config false t).2).2.2 } := by
  have ha := get_thread_state_argv env sp config t
  rw [hargv] at ha
  have hp : ¬(verb = "EVAL" ∧ rest ≠ []) := by
    rintro ⟨h1, h2⟩
    rcases hplain with h | h
    · exact h h1
    · exact h2 h
  rw [vmod_execute_some env sp config t c hctx (by rw [hargv]; simp),
    execute_body_plain env _ c _ verb rest ha hp]

theorem int_of_long_long_small (n : Int) (h0 : -2 ^ 31 ≤ n) (h1 : n < 2 ^ 31) :
    int_of_long_long n = n := by
  unfold int_of_long_long
  omega

theorem vmod_reply_is_eq (upper : Int) (env : Env) (sp : sess) (config : vcl_priv_t)
    (t : Thread) :
    (vmod_reply_is upper env sp config t).1 =
      match stored_reply sp t with
      | some reply => decide (reply.type = upper)
      | none => false := by
  unfold vmod_reply_is
  simp only [get_thread_state_reply]

theorem vmod_get_str_reply_eq (upper : Int) (env : Env) (sp : sess) (config : vcl_priv_t)
    (t : Thread) :
    (vmod_get_str_reply upper env sp config t).1 =
      match stored_reply sp t with
      | some reply => if reply.type = upper then some (c_string reply.str) else none
      | none => none := by
  unfold vmod_get_str_reply
  simp only [get_thread_state_reply]

theorem vmod_get_integer_reply_eq (env : Env) (sp : sess) (config : vcl_priv_t)
    (t : Thread) :
    (vmod_get_integer_reply env sp config t).1 =
      match stored_reply sp t with
      | some reply =>
        if reply.type = REDIS_REPLY_INTEGER then int_of_long_long reply.integer else 0
      | none => 0 := by
  unfold vmod_get_integer_reply
  simp only [get_thread_state_reply]

/-- What the thread is after a call that only binds to the request. -/
theorem stored_reply_bound (env : Env) (sp : sess) (config : vcl_priv_t) (t : Thread) :
    stored_reply sp
      { specific := some (get_thread_state env sp config false t).1,
        world := (get_thread_state env sp config false t).2 } = stored_reply sp t ∧
    pending_command sp
      { specific := some (get_thread_state env sp config false t).1,
        world := (get_thread_state env sp config false t).2 } = pending_command sp t := by
  constructor
  · rw [stored_reply_of]
    · exact get_thread_state_reply env sp config t
    · exact get_thread_state_xid env sp config false t
    · exact get_thread_state_id env sp config false t
  · rw [pending_command_of]
    · exact get_thread_state_argv env sp config t
    · exact get_thread_state_xid env sp config false t
    · exact get_thread_state_id env sp config false t

theorem upper_loop_length (l : List Char) : (upper_loop l).length = l.length := by
  induction l with
  | nil => rfl
  | cons c cs ih => simp [upper_loop, ih]

theorem upper_loop_eq_map (l : List Char) : upper_loop l = l.map toupper := by
  induction l with
  | nil => rfl
  | cons c cs ih => simp [upper_loop, ih]

/-- An execute of `EVAL s args...` whose EVALSHA attempt is not answered by
NOSCRIPT: one command handed over, the substituted command left pending. -/
theorem vmod_execute_eval_done (env : Env) (sp : sess) (config : vcl_priv_t)
    (t : Thread) (s : String) (args : List String) (c : redisContext)
    (hargv : pending_command sp t = "EVAL" :: s :: args)
    (hctx : (get_thread_state env sp config false t).1.context = some c)
    (hno : is_noscript
      { c with
        err := (env.redisCommandArgv (get_thread_state env sp config false t).2 c
          ("EVALSHA" :: sha1 env (get_thread_state env sp config false t).2 s :: args)).2.1,
        errstr := (env.redisCommandArgv (get_thread_state env sp config false t).2 c
          ("EVALSHA" :: sha1 env (get_thread_state env sp config false t).2 s :: args)).2.2 }
      (env.redisCommandArgv (get_thread_state env sp config false t).2 c
          ("EVALSHA" :: sha1 env (get_thread_state env sp config false t).2 s :: args)).1 = false) :
    (vmod_execute env sp config t).world.sent =
        t.world.sent ++ [{ context := c, argv := "EVALSHA" :: sha1 env (get_thread_state env sp config false t).2 s :: args }] ∧
    pending_command sp (vmod_execute env sp config t) = "EVALSHA" :: sha1 env (get_thread_state env sp config false t).2 s :: args ∧
    stored_reply sp (vmod_execute env sp config t) =
        (env.redisCommandArgv (get_thread_state env sp config false t).2 c
          ("EVALSHA" :: sha1 env (get_thread_state env sp config false t).2 s :: args)).1 := by
  have ha := get_thread_state_argv env sp config t
  rw [hargv] at ha
  rw [vmod_execute_some env sp config t c hctx (by rw [hargv]; simp),
    execute_body_done env _ c _ s args ha (by simpa [send_command] using hno)]
  refine ⟨?_, ?_, ?_⟩
  · simp [check_reply_sent, send_command, get_thread_state_sent]
  · rw [pending_command_of]
    · simp [send_command]
    · simp [send_command, get_thread_state_xid]
    · simp [send_command, get_thread_state_id]
  · rw [stored_reply_of]
    · simp [send_command]
    · simp [send_command, get_thread_state_xid]
    · simp [send_command, get_thread_state_id]

/-- An execute of `EVAL s args...` whose EVALSHA attempt is answered by
NOSCRIPT: two commands handed over, the original command pending again. -/
theorem vmod_execute_eval_noscript (env : Env) (sp : sess) (config : vcl_priv_t)
    (t : Thread) (s : String) (args : List String) (c : redisContext)
    (hargv : pending_command sp t = "EVAL" :: s :: args)
    (hctx : (get_thread_state env sp config false t).1.context = some c)
    (hno : is_noscript
      { c with
        err := (env.redisCommandArgv (get_thread_state env sp config false t).2 c
          ("EVALSHA" :: sha1 env (get_thread_state env sp config false t).2 s :: args)).2.1,
        errstr := (env.redisCommandArgv (get_thread_state env sp config false t).2 c
          ("EVALSHA" :: sha1 env (get_thread_state env sp config false t).2 s :: args)).2.2 }
      (env.redisCommandArgv (get_thread_state env sp config false t).2 c
          ("EVALSHA" :: sha1 env (get_thread_state env sp config false t).2 s :: args)).1 = true) :
    (vmod_execute env sp config t).world.sent =
        t.world.sent ++
          [{ context := c, argv := "EVALSHA" :: sha1 env (get_thread_state env sp config false t).2 s :: args },
           { context :=
               { c with
                 err := (env.redisCommandArgv (get_thread_state env sp config false t).2 c
                   ("EVALSHA" :: sha1 env (get_thread_state env sp config false t).2 s :: args)).2.1,
                 errstr := (env.redisCommandArgv (get_thread_state env sp config false t).2 c
                   ("EVALSHA" :: sha1 env (get_thread_state env sp config false t).2 s :: args)).2.2 },
             argv := "EVAL" :: s :: args }] ∧
    pending_command sp (vmod_execute env sp config t) = "EVAL" :: s :: args := by
  have ha := get_thread_state_argv env sp config t
  rw [hargv] at ha
  rw [vmod_execute_some env sp config t c hctx (by rw [hargv]; simp),
    execute_body_noscript env _ c _ s args ha (by simpa [send_command] using hno)]
  refine ⟨?_, ?_⟩
  · simp [check_reply_sent, send_command, get_thread_state_sent]
  · rw [pending_command_of]
    · simp [send_command]
    · simp [send_command, get_thread_state_xid]
    · simp [send_command, get_thread_state_id]

/-- The first command an execute of `EVAL s args...` hands over. -/
theorem vmod_execute_eval_first (env : Env) (sp : sess) (config : vcl_priv_t)
    (t : Thread) (s : String) (args : List String) (c : redisContext)
    (hargv : pending_command sp t = "EVAL" :: s :: args)
    (hctx : (get_thread_state env sp config false t).1.context = some c) :
    ∃ more, (vmod_execute env sp config t).world.sent =
      t.world.sent ++ { context := c, argv := "EVALSHA" :: sha1 env (get_thread_state env sp config false t).2 s :: args } :: more := by
  cases hno : is_noscript
      { c with
        err := (env.redisCommandArgv (get_thread_state env sp config false t).2 c
          ("EVALSHA" :: sha1 env (get_thread_state env sp config false t).2 s :: args)).2.1,
        errstr := (env.redisCommandArgv (get_thread_state env sp config false t).2 c
          ("EVALSHA" :: sha1 env (get_thread_state env sp config false t).2 s :: args)).2.2 }
      (env.redisCommandArgv (get_thread_state env sp config false t).2 c
          ("EVALSHA" :: sha1 env (get_thread_state env sp config false t).2 s :: args)).1 with
  | false => exact ⟨[], (vmod_execute_eval_done env sp config t s args c hargv hctx hno).1⟩
  | true => exact ⟨_, (vmod_execute_eval_noscript env sp config t s args c hargv hctx hno).1⟩

theorem sprintf_hex2_ok (block : Block) (ptr b : Nat) (h : ptr + 2 < block.length) :
    ∃ b1, sprintf_hex2 block ptr b = .ok b1 ∧ b1.length = block.length := by
  unfold sprintf_hex2 Block.store
  rw [if_pos (by omega)]
  simp only [List.length_set]
  rw [if_pos (by omega)]
  simp only [List.length_set]
  rw [if_pos h]
  exact ⟨_, rfl, by simp⟩

theorem sprintf_hex2_overflow (block : Block) (ptr b : Nat) (h : block.length ≤ ptr + 2) :
    sprintf_hex2 block ptr b = .error Fault.out_of_bounds := by
  unfold sprintf_hex2 Block.store
  by_cases h0 : ptr < block.length
  · rw [if_pos h0]
    simp only [List.length_set]
    by_cases h1 : ptr + 1 < block.length
    · rw [if_pos h1]
      simp only [List.length_set]
      rw [if_neg (by omega)]
    · rw [if_neg h1]
  · rw [if_neg h0]

/-- The loop of `sha1` on a block of `2 * last` bytes, `last` being the index
after the final iteration: the final `sprintf` fails. -/
theorem encode_from_overflow (env : Env) (script : String) (fuel : Nat) :
    ∀ (i : Nat) (block : Block), 0 < fuel → block.length = 2 * (i + fuel) →
      encode_from env script fuel i block = .error Fault.out_of_bounds := by
  induction fuel with
  | zero => intro i block h; omega
  | succ n ih =>
    intro i block _ hlen
    unfold encode_from
    by_cases hn : n = 0
    · rw [sprintf_hex2_overflow block (2 * i) _ (by omega)]
    · obtain ⟨b1, h1, h2⟩ := sprintf_hex2_ok block (2 * i) (env.mhash script i % 256) (by omega)
      rw [h1]
      exact ih (i + 1) b1 (by omega) (by omega)

/-- The loop of `sha1` on a block with room for the final NUL succeeds. -/
theorem encode_from_ok (env : Env) (script : String) (fuel : Nat) :
    ∀ (i : Nat) (block : Block), 2 * (i + fuel) + 1 ≤ block.length →
      ∃ b1, encode_from env script fuel i block = .ok b1 := by
  induction fuel with
  | zero => intro i block _; exact ⟨block, rfl⟩
  | succ n ih =>
    intro i block hlen
    unfold encode_from
    obtain ⟨b1, h1, h2⟩ := sprintf_hex2_ok block (2 * i) (env.mhash script i % 256) (by omega)
    rw [h1]
    exact ih (i + 1) b1 (by omega)

theorem hex_digit_mem (n : Nat) (h : n < 16) : hex_digit n ∈ "0123456789abcdef".toList := by
  interval_cases n <;> decide

/-- The text `sha1` stands for: 40 characters, each a lowercase hexadecimal
digit. -/
theorem sha1_text (env : Env) (script : String) :
    (sha1_digits env script).length = 40 ∧
    ∀ ch ∈ (sha1_digits env script).toList, ch ∈ "0123456789abcdef".toList := by
  constructor
  · show (((List.range block_size).map
        fun i => hex2 (env.mhash script i % 256)).flatten).length = 40
    rw [List.length_flatten, List.map_map]
    have hc : (List.length ∘ fun i => hex2 (env.mhash script i % 256)) = fun _ => 2 := rfl
    rw [hc]
    simp [block_size]
  · intro ch hch
    have hch1 : ch ∈ ((List.range block_size).map
        fun i => hex2 (env.mhash script i % 256)).flatten := hch
    rw [List.mem_flatten] at hch1
    obtain ⟨l, hl, hin⟩ := hch1
    rw [List.mem_map] at hl
    obtain ⟨i, -, hi⟩ := hl
    rw [← hi] at hin
    unfold hex2 at hin
    simp only [List.mem_cons, List.mem_singleton, List.not_mem_nil, or_false] at hin
    rcases hin with h | h
    · rw [h]
      exact hex_digit_mem _ (by omega)
    · rw [h]
      exact hex_digit_mem _ (by omega)
theorem sprintf_hex2_at (pre : List Char) (x : Option Char) (tail : Block) (b : Nat) :
    sprintf_hex2 (pre.map some ++ x :: none :: none :: tail) pre.length b =
      .ok ((pre ++ hex2 b).map some ++ some (Char.ofNat 0) :: tail) := by
  have e0 : (pre.map some ++ x :: none :: none :: tail).set pre.length
      (some (hex_digit (b / 16)))
        = pre.map some ++ some (hex_digit (b / 16)) :: none :: none :: tail := by
    rw [List.set_append_right _ _ (by simp)]
    simp
  have e1 : (pre.map some ++ some (hex_digit (b / 16)) :: none :: none :: tail).set
      (pre.length + 1) (some (hex_digit (b % 16)))
        = pre.map some ++ some (hex_digit (b / 16)) :: some (hex_digit (b % 16)) :: none
            :: tail := by
    rw [List.set_append_right _ _ (by simp)]
    simp
  have e2 : (pre.map some ++ some (hex_digit (b / 16)) :: some (hex_digit (b % 16)) :: none
      :: tail).set (pre.length + 2) (some (Char.ofNat 0))
        = pre.map some ++ some (hex_digit (b / 16)) :: some (hex_digit (b % 16))
            :: some (Char.ofNat 0) :: tail := by
    rw [List.set_append_right _ _ (by simp)]
    simp
  unfold sprintf_hex2 Block.store
  rw [if_pos (by simp), e0]
  simp only []
  rw [if_pos (by simp), e1]
  simp only []
  rw [if_pos (by simp), e2]
  simp [hex2]

/-- The content the loop of `sha1` leaves in a block that has room for it: the
digits of the hash bytes from index `i` on after what was there, then a NUL. -/
theorem encode_from_content (env : Env) (script : String) (fuel : Nat) :
    ∀ (i : Nat) (pre : List Char) (x : Option Char), 0 < fuel → pre.length = 2 * i →
      encode_from env script fuel i (pre.map some ++ x :: List.replicate (2 * fuel) none) =
        .ok ((pre ++ ((List.range' i fuel).map
            fun j => hex2 (env.mhash script j % 256)).flatten).map some
          ++ [some (Char.ofNat 0)]) := by
  induction fuel with
  | zero => intro i pre x h; omega
  | succ n ih =>
    intro i pre x _ hlen
    unfold encode_from
    have hr : List.replicate (2 * (n + 1)) (none : Option Char)
        = none :: none :: List.replicate (2 * n) none := by
      rw [show 2 * (n + 1) = 2 * n + 1 + 1 by omega, List.replicate_succ, List.replicate_succ]
    rw [hr, ← hlen, sprintf_hex2_at]
    simp only []
    by_cases hn : n = 0
    · subst hn
      simp [encode_from, List.range']
    · rw [ih (i + 1) (pre ++ hex2 (env.mhash script i % 256)) (some (Char.ofNat 0))
        (by omega) (by simp [hex2]; omega)]
      simp [List.range']

theorem check_request_true (sp : sess) (st : thread_state) :
    check_request sp true st = flushed_for sp st := by
  unfold check_request flushed_for
  by_cases h : st.xid ≠ sp.xid ∨ st.id ≠ sp.id
  · simp [h]
  · have h1 : st.xid = sp.xid := by by_contra hx; exact h (Or.inl hx)
    have h2 : st.id = sp.id := by by_contra hx; exact h (Or.inr hx)
    simp [h1, h2]

theorem check_request_changed (sp : sess) (flush : Bool) (st : thread_state)
    (h : st.xid ≠ sp.xid ∨ st.id ≠ sp.id) :
    check_request sp flush st = flushed_for sp st := by
  unfold check_request flushed_for
  simp [h]

/-- A stored connection whose error flag is clear: `get_thread_state` keeps it
and does nothing to the outside. -/
theorem get_thread_state_kept (env : Env) (sp : sess) (config : vcl_priv_t) (flush : Bool)
    (t : Thread) (st : thread_state) (c : redisContext)
    (hs : t.specific = some st) (hc : st.context = some c) (herr : c.err = 0) :
    get_thread_state env sp config flush t = (check_request sp flush st, t.world) := by
  obtain ⟨spec, w⟩ := t
  simp only at hs
  subst hs
  unfold get_thread_state check_state create_context
  simp [hc, herr]

theorem vmod_execute_plain_pending (env : Env) (sp : sess) (config : vcl_priv_t)
    (t : Thread) (verb : String) (rest : List String) (c : redisContext)
    (hargv : pending_command sp t = verb :: rest)
    (hplain : verb ≠ "EVAL" ∨ rest = [])
    (hctx : (get_thread_state env sp config false t).1.context = some c) :
    pending_command sp (vmod_execute env sp config t) = verb :: rest ∧
    (vmod_execute env sp config t).world.sent =
      t.world.sent ++ [{ context := c, argv := verb :: rest }] := by
  have ha := get_thread_state_argv env sp config t
  rw [hargv] at ha
  rw [vmod_execute_plain env sp config t verb rest c hargv hplain hctx]
  constructor
  · rw [pending_command_of]
    · simp [send_command, ha]
    · simp [send_command, get_thread_state_xid]
    · simp [send_command, get_thread_state_id]
  · simp [check_reply_sent, send_command, get_thread_state_sent, ha]

/-- An execute changes neither the length of the pending command nor its
entries from index 2 on. -/
theorem vmod_execute_shape (env : Env) (sp : sess) (config : vcl_priv_t) (t : Thread) :
    (pending_command sp (vmod_execute env sp config t)).length
      = (pending_command sp t).length ∧
    (pending_command sp (vmod_execute env sp config t)).drop 2
      = (pending_command sp t).drop 2 := by
  cases hctx : (get_thread_state env sp config false t).1.context with
  | none =>
    rw [vmod_execute_idle env sp config t (Or.inl hctx), (stored_reply_bound env sp config t).2]
    exact ⟨rfl, rfl⟩
  | some c =>
    cases hp : pending_command sp t with
    | nil =>
      rw [vmod_execute_idle env sp config t (Or.inr hp),
        (stored_reply_bound env sp config t).2, hp]
      exact ⟨rfl, rfl⟩
    | cons verb rest =>
      by_cases hplain : verb ≠ "EVAL" ∨ rest = []
      · rw [(vmod_execute_plain_pending env sp config t verb rest c hp hplain hctx).1]
        exact ⟨rfl, rfl⟩
      · have hv : verb = "EVAL" := by
          by_contra h
          exact hplain (Or.inl h)
        subst hv
        cases rest with
        | nil => exact absurd (Or.inr rfl) hplain
        | cons s args =>
          cases hno : is_noscript
              { c with
                err := (env.redisCommandArgv (get_thread_state env sp config false t).2 c
                  ("EVALSHA" :: sha1 env (get_thread_state env sp config false t).2 s :: args)).2.1,
                errstr := (env.redisCommandArgv (get_thread_state env sp config false t).2 c
                  ("EVALSHA" :: sha1 env (get_thread_state env sp config false t).2 s :: args)).2.2 }
              (env.redisCommandArgv (get_thread_state env sp config false t).2 c
                  ("EVALSHA" :: sha1 env (get_thread_state env sp config false t).2 s :: args)).1 with
          | false =>
            rw [(vmod_execute_eval_done env sp config t s args c hp hctx hno).2.1]
            exact ⟨rfl, rfl⟩
          | true =>
            rw [(vmod_execute_eval_noscript env sp config t s args c hp hctx hno).2]
            exact ⟨rfl, rfl⟩

theorem get_thread_state_none_attempt (env : Env) (sp : sess) (config : vcl_priv_t)
    (flush : Bool) (t : Thread)
    (h : (get_thread_state env sp config flush t).1.context = none) :
    (get_thread_state env sp config flush t).2.attempts = t.world.attempts + 1 := by
  obtain ⟨spec, w⟩ := t
  unfold get_thread_state at h ⊢
  rw [check_request_context] at h
  unfold check_state create_context at h ⊢
  cases spec with
  | none =>
    by_cases he : (env.redisConnectWithTimeout w config).1 = 0
    · simp [he] at h
    · simp [he, REDIS_LOG]
  | some st =>
    obtain ⟨xid, id, ctx, argv, reply⟩ := st
    cases ctx with
    | none =>
      by_cases he : (env.redisConnectWithTimeout w config).1 = 0
      · simp [he] at h
      · simp [he, REDIS_LOG]
    | some c =>
      by_cases hc : c.err = 0
      · simp [hc] at h
      · by_cases he : (env.redisConnectWithTimeout
            { w with freed := w.freed ++ [c.id] } config).1 = 0
        · simp [hc, he] at h
        · simp [hc, he, REDIS_LOG]

/-- Binding to a request keeps `reply_has_connection`. -/
theorem get_thread_state_coherent (env : Env) (sp : sess) (config : vcl_priv_t)
    (flush : Bool) (t : Thread) (hinv : reply_has_connection t)
    (hr : (get_thread_state env sp config flush t).1.reply ≠ none) :
    ∃ c, (get_thread_state env sp config flush t).1.context = some c ∧ c.err = 0 := by
  cases flush with
  | true => exact absurd (get_thread_state_flush env sp config t).2 hr
  | false =>
    rw [get_thread_state_reply] at hr
    cases hs : t.specific with
    | none => simp [stored_reply, hs] at hr
    | some st =>
      have hst : st.reply ≠ none := by
        intro h0
        apply hr
        simp only [stored_reply, hs]
        split
        · exact h0
        · rfl
      obtain ⟨c, hc, herr⟩ := hinv st hs hst
      refine ⟨c, ?_, herr⟩
      rw [get_thread_state_kept env sp config false t st c hs hc herr, check_request_context]
      exact hc

theorem send_command_coherent (env : Env) (state : thread_state) (c : redisContext) (w : World)
    (henv : reply_without_error env)
    (hr : (send_command env state c w).1.reply ≠ none) :
    ∃ c1, (send_command env state c w).1.context = some c1 ∧ c1.err = 0 :=
  ⟨_, rfl, henv w c state.argv hr⟩

theorem execute_body_coherent (env : Env) (state : thread_state) (c : redisContext) (w : World)
    (henv : reply_without_error env) :
    reply_has_connection (execute_body env state c w) := by
  intro st hs hr
  by_cases happ : state.argv.head? = some "EVAL" ∧ state.argc ≥ 2
  · have hex : ∃ s args, state.argv = "EVAL" :: s :: args := by
      simp only [thread_state.argc] at happ
      rcases h : state.argv with _ | ⟨verb, _ | ⟨s, args⟩⟩
      · rw [h] at happ; simp at happ
      · rw [h] at happ; simp at happ
      · rw [h] at happ
        have hv : verb = "EVAL" := by simpa using happ.1
        exact ⟨s, args, by rw [hv]⟩
    obtain ⟨s, args, hargv⟩ := hex
    cases hno : is_noscript
      (send_command env { state with argv := "EVALSHA" :: sha1 env w s :: args } c w).2.1
      (send_command env { state with argv := "EVALSHA" :: sha1 env w s :: args } c w).1.reply with
    | true =>
      rw [execute_body_noscript env _ c w s args hargv hno] at hs
      simp only [Option.some.injEq] at hs
      subst hs
      exact send_command_coherent env _ _ _ henv hr
    | false =>
      rw [execute_body_done env _ c w s args hargv hno] at hs
      simp only [Option.some.injEq] at hs
      subst hs
      exact send_command_coherent env _ _ _ henv hr
  · have ht : try_evalsha env state c w = (state, c, w, false) := by
      unfold try_evalsha
      rw [if_neg happ]
    unfold execute_body at hs
    rw [ht] at hs
    simp only [Bool.false_eq_true, if_false, Option.some.injEq] at hs
    subst hs
    exact send_command_coherent env _ _ _ henv hr

/-- With a transport that has the property of hiredis, every call keeps
`reply_has_connection`. -/
theorem run_coherent (env : Env) (sp : sess) (config : vcl_priv_t) (call : Call) (t : Thread)
    (henv : reply_without_error env) (hinv : reply_has_connection t) :
    reply_has_connection (call.run env sp config t).2 := by
  have hg := fun f => get_thread_state_coherent env sp config f t hinv
  have bound : ∀ (f : Bool) (w : World),
      reply_has_connection
        { specific := some (get_thread_state env sp config f t).1, world := w } := by
    intro f w st hs hr
    simp only [Option.some.injEq] at hs
    subst hs
    exact hg f hr
  cases call with
  | push arg =>
    simp only [Call.run]
    by_cases h : 1 ≤ (pending_command sp t).length ∧
        (pending_command sp t).length < MAX_REDIS_COMMAND_ARGS
    · rw [vmod_push_ok env sp config arg t h.1 h.2]
      intro st hs hr
      simp only [Option.some.injEq] at hs
      subst hs
      exact hg false hr
    · rw [vmod_push_fail env sp config arg t (by omega)]
      exact bound false _
  | execute =>
    simp only [Call.run]
    cases hctx : (get_thread_state env sp config false t).1.context with
    | none =>
      rw [vmod_execute_idle env sp config t (Or.inl hctx)]
      exact bound false _
    | some c =>
      by_cases hp : pending_command sp t = []
      · rw [vmod_execute_idle env sp config t (Or.inr hp)]
        exact bound false _
      · have hlen : 1 ≤ (pending_command sp t).length := by
          cases hl : pending_command sp t with
          | nil => exact absurd hl hp
          | cons a l => simp
        rw [vmod_execute_some env sp config t c hctx hlen]
        exact execute_body_coherent env _ c _ henv
  | reply_is upper => exact bound false _
  | get_reply => exact bound false _
  | get_str_reply upper => exact bound false _
  | get_integer_reply => exact bound false _
  | get_array_reply_length => exact bound false _
  | get_array_reply_value index => exact bound false _
  | free => exact bound true _

/-- `vmod_command` keeps `reply_has_connection`, and a thread that never called
the module has it. -/
theorem vmod_command_coherent (env : Env) (sp : sess) (config : vcl_priv_t)
    (name : Option String) (t : Thread) (hinv : reply_has_connection t) :
    reply_has_connection (vmod_command env sp config name t) ∧
    ∀ w : World, reply_has_connection { specific := none, world := w } := by
  constructor
  · unfold vmod_command
    cases name with
    | none => exact hinv
    | some n =>
      by_cases h : n.length > 0
      · simp only [h, if_true]
        intro st hs hr
        simp only [Option.some.injEq] at hs
        subst hs
        exact absurd (get_thread_state_flush env sp config t).2 hr
      · simp only [h, if_false]
        exact hinv
  · intro w st hs
    cases hs

theorem c_string_of_no_nul (s : String) (h : ∀ ch ∈ s.toList, ch ≠ Char.ofNat 0) :
    c_string s = s := by
  unfold c_string
  have h1 : s.toList.takeWhile (fun ch => decide (ch ≠ Char.ofNat 0)) = s.toList := by
    rw [List.takeWhile_eq_self_iff]
    intro ch hch
    exact decide_eq_true (h ch hch)
  rw [h1]
  rfl

theorem digitChar_ne_nul (n : Nat) (h : n < 10) : Nat.digitChar n ≠ Char.ofNat 0 := by
  interval_cases n <;> decide

theorem toDigitsCore_no_nul (fuel : Nat) :
    ∀ (n : Nat) (ds : List Char), (∀ ch ∈ ds, ch ≠ Char.ofNat 0) →
      ∀ ch ∈ Nat.toDigitsCore 10 fuel n ds, ch ≠ Char.ofNat 0 := by
  induction fuel with
  | zero =>
    intro n ds hds ch hch
    exact hds ch hch
  | succ f ih =>
    intro n ds hds ch hch
    have hd : ∀ c ∈ Nat.digitChar (n % 10) :: ds, c ≠ Char.ofNat 0 := by
      intro c hc
      rcases List.mem_cons.1 hc with h | h
      · rw [h]
        exact digitChar_ne_nul _ (Nat.mod_lt _ (by decide))
      · exact hds c h
    simp only [Nat.toDigitsCore] at hch
    split at hch
    · exact hd ch hch
    · exact ih _ _ hd ch hch

theorem nat_text_no_nul (m : Nat) : ∀ ch ∈ (toString m).toList, ch ≠ Char.ofNat 0 :=
  toDigitsCore_no_nul (m + 1) m [] (fun _ h => absurd h (List.not_mem_nil _))

/-- The decimal text of an integer holds no NUL. -/
theorem int_text_no_nul (n : Int) : ∀ ch ∈ (toString n).toList, ch ≠ Char.ofNat 0 := by
  cases n with
  | ofNat m => exact nat_text_no_nul m
  | negSucc m =>
    intro ch hch
    have h1 : (toString (Int.negSucc m)).toList = '-' :: (toString (m + 1)).toList := rfl
    rw [h1] at hch
    rcases List.mem_cons.1 hch with h | h
    · rw [h]; decide
    · exact nat_text_no_nul (m + 1) ch h

/-! ## The claims -/

/-- C1: the first command of an execute of `EVAL "return 1" 0` on a heap where
a byte that is not zero lies behind the block of `sha1`.  The transport is
handed `EVALSHA` with the 40 digits followed by that byte, 41 characters, not
the digest; on the NOSCRIPT answer the second command is `EVAL "return 1" 0`
and its answer is the stored reply. -/
theorem execute_eval_sends_unterminated_digest :
    pending_command request_a (sample_thread ["EVAL", "return 1", "0"] none)
        = ["EVAL", "return 1", "0"] ∧
    (vmod_execute overrun_env request_a sample_config
        (sample_thread ["EVAL", "return 1", "0"] none)).world.sent =
      [{ context := sample_context,
         argv := ["EVALSHA", sha1_digits overrun_env "return 1" ++ "!", "0"] },
       { context := sample_context, argv := ["EVAL", "return 1", "0"] }] ∧
    (sha1_digits overrun_env "return 1" ++ "!").length = 41 ∧
    sha1_digits overrun_env "return 1" ++ "!" ≠ sha1_digits overrun_env "return 1" ∧
    (stored_reply request_a (vmod_execute overrun_env request_a sample_config
        (sample_thread ["EVAL", "return 1", "0"] none))).map redisReply.integer = some 1 := by
  refine ⟨rfl, rfl, ?_, ?_, rfl⟩ <;> decide

/-- C2: when the pending command is `EVAL s args...`, `vmod_execute` obtains a
connection `c`, and the outcome of the EVALSHA attempt is anything but a
NOSCRIPT error reply received without transport error, exactly one command is
handed to the transport, the EVALSHA with `argv[1]` as `sha1` left it, and the
stored reply is the outcome of that send. -/
theorem execute_eval_single_send (env : Env) (sp : sess) (config : vcl_priv_t)
    (t : Thread) (s : String) (args : List String) (c : redisContext)
    (hargv : pending_command sp t = "EVAL" :: s :: args)
    (hctx : (get_thread_state env sp config false t).1.context = some c)
    (hother : ¬((env.redisCommandArgv (get_thread_state env sp config false t).2 c
          ("EVALSHA" :: sha1 env (get_thread_state env sp config false t).2 s :: args)).2.1 = 0 ∧
        ∃ r, (env.redisCommandArgv (get_thread_state env sp config false t).2 c
          ("EVALSHA" :: sha1 env (get_thread_state env sp config false t).2 s :: args)).1 = some r ∧
          r.type = REDIS_REPLY_ERROR ∧ "NOSCRIPT".toList <+: r.str.toList)) :
    (vmod_execute env sp config t).world.sent =
        t.world.sent ++ [{ context := c, argv := "EVALSHA" :: sha1 env (get_thread_state env sp config false t).2 s :: args }] ∧
    stored_reply sp (vmod_execute env sp config t) =
        (env.redisCommandArgv (get_thread_state env sp config false t).2 c
          ("EVALSHA" :: sha1 env (get_thread_state env sp config false t).2 s :: args)).1 := by
  have ha := get_thread_state_argv env sp config t
  rw [hargv] at ha
  have hno : is_noscript
      (send_command env { (get_thread_state env sp config false t).1 with
        argv := "EVALSHA" :: sha1 env (get_thread_state env sp config false t).2 s :: args } c (get_thread_state env sp config false t).2).2.1
      (send_command env { (get_thread_state env sp config false t).1 with
        argv := "EVALSHA" :: sha1 env (get_thread_state env sp config false t).2 s :: args } c
          (get_thread_state env sp config false t).2).1.reply = false := by
    rw [Bool.eq_false_iff]
    intro h
    rw [is_noscript_iff] at h
    exact hother (by simpa [send_command] using h)
  rw [vmod_execute_some env sp config t c hctx (by rw [hargv]; simp),
    execute_body_done env _ c _ s args ha hno]
  constructor
  · simp [check_reply_sent, send_command, get_thread_state_sent]
  · rw [stored_reply_of]
    · simp [send_command]
    · simp [send_command, get_thread_state_xid]
    · simp [send_command, get_thread_state_id]

/-- C2, where the server has the script cached and answers the EVALSHA with an
integer. -/
theorem execute_eval_single_send_witness :
    pending_command request_a (sample_thread ["EVAL", "return 1", "0"] none)
        = ["EVAL", "return 1", "0"] ∧
    (vmod_execute overrun_cached_env request_a sample_config
        (sample_thread ["EVAL", "return 1", "0"] none)).world.sent =
      [{ context := sample_context,
         argv := ["EVALSHA",
           sha1 overrun_cached_env
             (get_thread_state overrun_cached_env request_a sample_config false
               (sample_thread ["EVAL", "return 1", "0"] none)).2 "return 1", "0"] }] :=
  ⟨rfl,
   (execute_eval_single_send overrun_cached_env request_a sample_config
      (sample_thread ["EVAL", "return 1", "0"] none) "return 1" ["0"] sample_context
      rfl rfl
      (by
        rintro ⟨-, r, hr, ht, -⟩
        have h1 : r = redisReply.mk REDIS_REPLY_INTEGER 1 "" [] := (Option.some.inj hr).symm
        rw [h1] at ht
        revert ht
        decide)).1⟩

/-- C3: a call other than `redis.command` made for a request whose identity
differs, in `xid` or in `id`, from the one stored in the thread state acts
exactly as it would on the state with the pending command emptied, the reply
dropped and the new identity recorded; after it nothing is pending, no reply is
stored, the new identity is recorded and nothing was handed to the transport.
In particular, after `GET`, push `k` in one request, any such call in another
request followed by an execute sends nothing and `vmod_get_reply` returns
`NULL`. -/
theorem new_request_flushes (env : Env) (sp : sess) (config : vcl_priv_t) (call : Call)
    (t : Thread) (st : thread_state) (hs : t.specific = some st)
    (hnew : st.xid ≠ sp.xid ∨ st.id ≠ sp.id) :
    call.run env sp config t =
      call.run env sp config { specific := some (flushed_for sp st), world := t.world } ∧
    (∃ st1, (call.run env sp config t).2.specific = some st1 ∧ st1.xid = sp.xid ∧
      st1.id = sp.id ∧ st1.argv = [] ∧ st1.reply = none) ∧
    (call.run env sp config t).2.world.sent = t.world.sent ∧
    ∀ (old : sess) (t0 : Thread), (old.xid ≠ sp.xid ∨ old.id ≠ sp.id) →
      pending_command old
        (vmod_push env old config (some "k") (vmod_command env old config (some "GET") t0))
          = ["GET", "k"] ∧
      (vmod_execute env sp config (call.run env sp config
        (vmod_push env old config (some "k")
          (vmod_command env old config (some "GET") t0))).2).world.sent = t0.world.sent ∧
      (vmod_get_reply env sp config (vmod_execute env sp config (call.run env sp config
        (vmod_push env old config (some "k")
          (vmod_command env old config (some "GET") t0))).2)).1 = none := by
  obtain ⟨hp, hr⟩ := pending_command_other sp t st hs hnew
  obtain ⟨h1, h2⟩ := run_on_empty env sp config call t hp hr
  refine ⟨run_new_request env sp config call t st hs hnew, h1, h2, ?_⟩
  intro old t0 hold
  have hu : String.mk (upper_loop "GET".toList) = "GET" := by decide
  have hc := vmod_command_pending env old config "GET" t0 (by decide)
  rw [hu] at hc
  have hk : pending_command old
      (vmod_push env old config (some "k") (vmod_command env old config (some "GET") t0))
        = ["GET", "k"] := by
    simp [vmod_push_pending, hc, MAX_REDIS_COMMAND_ARGS]
  obtain ⟨st2, hs2, hx2, hi2⟩ := vmod_push_specific env old config (some "k")
    (vmod_command env old config (some "GET") t0)
  have hnew2 : st2.xid ≠ sp.xid ∨ st2.id ≠ sp.id := by rw [hx2, hi2]; exact hold
  obtain ⟨hp2, hr2⟩ := pending_command_other sp _ st2 hs2 hnew2
  obtain ⟨⟨st3, hs3, hx3, hi3, ha3, hr3⟩, hsent3⟩ :=
    run_on_empty env sp config call _ hp2 hr2
  have hp3 : pending_command sp (call.run env sp config
      (vmod_push env old config (some "k") (vmod_command env old config (some "GET") t0))).2
        = [] := by
    simp [pending_command, hs3, ha3]
  have hr3 : stored_reply sp (call.run env sp config
      (vmod_push env old config (some "k") (vmod_command env old config (some "GET") t0))).2
        = none := by
    simp [stored_reply, hs3, hr3]
  refine ⟨hk, ?_, ?_⟩
  · rw [vmod_execute_idle env sp config _ (Or.inr hp3)]
    simp only [get_thread_state_sent, hsent3, vmod_push_sent, vmod_command_sent]
  · rw [vmod_get_reply_eq, vmod_execute_idle env sp config _ (Or.inr hp3), stored_reply_of]
    · rw [get_thread_state_reply, hr3]
    · exact get_thread_state_xid env sp config false _
    · exact get_thread_state_id env sp config false _

/-- C3, at `GET k` pending for `request_a` and `vmod_get_reply` called for
`request_b`. -/
theorem new_request_flushes_witness :
    (request_a.xid ≠ request_b.xid ∨ request_a.id ≠ request_b.id) ∧
    (Call.get_reply.run sample_env request_b sample_config
      (sample_thread ["GET", "k"] none)).2.world.sent
        = (sample_thread ["GET", "k"] none).world.sent :=
  ⟨by decide,
   (new_request_flushes sample_env request_b sample_config Call.get_reply
      (sample_thread ["GET", "k"] none)
      { xid := 1001, id := 7, context := some sample_context, argv := ["GET", "k"],
        reply := none }
      rfl (by decide)).2.2.1⟩

/-- C4: a stored connection whose error flag is set is never reused.  When a
call finds the stored connection `c0` flagged, it frees `c0` and makes exactly
one connection attempt: this holds for every call other than `redis.command`
and for `redis.command` with a non-empty name.  Whatever the call hands to the
transport goes to the connection made by that attempt, with its error flag
clear; when the attempt fails, nothing is sent and the state is left without
connection.  And whatever the thread state, every command `vmod_execute` hands
to the transport goes to a connection whose error flag is clear. -/
theorem flagged_connection_never_reused (env : Env) (sp : sess) (config : vcl_priv_t)
    (t : Thread) (st : thread_state) (c0 : redisContext)
    (hs : t.specific = some st) (hc : st.context = some c0) (herr : c0.err ≠ 0)
    (hid : c0.id < t.world.attempts) :
    (∀ call : Call,
      reconnected_once t c0
        (env.redisConnectWithTimeout
          { t.world with freed := t.world.freed ++ [c0.id] } config).1
        (call.run env sp config t).2) ∧
    (∀ name : String, name.length > 0 →
      reconnected_once t c0
        (env.redisConnectWithTimeout
          { t.world with freed := t.world.freed ++ [c0.id] } config).1
        (vmod_command env sp config (some name) t)) ∧
    ∀ any : Thread, ∃ new,
      (vmod_execute env sp config any).world.sent = any.world.sent ++ new ∧
      ∀ e ∈ new, e.context.err = 0 := by
  refine ⟨?_, ?_, ?_⟩
  · intro call
    obtain ⟨g1, g2, g3, g4⟩ := get_thread_state_flagged env sp config false t st c0 hs hc herr
    obtain ⟨f1, f2, ⟨new, f3, f4⟩, st1, f5, f6, f7⟩ := run_frame env sp config call t
    refine ⟨by rw [f1, g1], by rw [f2]; exact g2, ⟨new, f3, ?_⟩, ?_, ?_⟩
    · intro e he
      obtain ⟨e1, c, e2, e3⟩ := f4 e he
      by_cases ho : (env.redisConnectWithTimeout
          { t.world with freed := t.world.freed ++ [c0.id] } config).1 = 0
      · obtain ⟨c1, k1, k2⟩ := g4 ho
        rw [k1] at e2
        cases e2
        refine ⟨by rw [e3, k2], e1, ?_⟩
        rw [e3, k2]
        omega
      · rw [g3 ho] at e2
        cases e2
    · intro ho
      have hnil : new = [] := by
        apply List.eq_nil_iff_forall_not_mem.2
        intro e he
        obtain ⟨-, c, e2, -⟩ := f4 e he
        rw [g3 ho] at e2
        cases e2
      rw [hnil, List.append_nil] at f3
      exact ⟨f3, st1, f5, f6 (g3 ho)⟩
    · intro ho
      obtain ⟨c1, k1, k2⟩ := g4 ho
      obtain ⟨c2, k3, k4⟩ := f7 c1 k1
      exact ⟨st1, c2, f5, k3, by rw [k4, k2]⟩
  · intro name hname
    obtain ⟨g1, g2, g3, g4⟩ := get_thread_state_flagged env sp config true t st c0 hs hc herr
    rw [vmod_command_eq env sp config name t hname]
    refine ⟨g1, g2, ⟨[], by simp [get_thread_state_sent], by simp⟩, ?_, ?_⟩
    · intro ho
      exact ⟨get_thread_state_sent env sp config true t, _, rfl, g3 ho⟩
    · intro ho
      obtain ⟨c1, k1, k2⟩ := g4 ho
      exact ⟨_, c1, rfl, k1, k2⟩
  · intro any
    obtain ⟨-, -, ⟨new, f3, f4⟩, -⟩ := run_frame env sp config Call.execute any
    exact ⟨new, f3, fun e he => (f4 e he).1⟩

/-- C4, at an execute of `GET k` on a thread whose connection was flagged by
the previous command. -/
theorem flagged_connection_never_reused_witness :
    reconnected_once flagged_thread
      { id := 0, err := 3, errstr := "Server closed the connection" }
      (sample_env.redisConnectWithTimeout
        { flagged_thread.world with freed := flagged_thread.world.freed ++ [0] }
        sample_config).1
      (Call.execute.run sample_env request_a sample_config flagged_thread).2 :=
  (flagged_connection_never_reused sample_env request_a sample_config flagged_thread
    { xid := 1001, id := 7,
      context := some { id := 0, err := 3, errstr := "Server closed the connection" },
      argv := ["GET", "k"], reply := none }
    { id := 0, err := 3, errstr := "Server closed the connection" }
    rfl rfl (by decide) (by decide)).1 Call.execute

/-- C5: `vmod_command` with a non-empty name discards what was pending: the
pending command is the one entry made from the name and no reply is stored.
After `GET`, push `x`, `SET`, push `y`, push `z` the pending command is
`SET y z`, and an execute that obtains a connection hands exactly `SET y z` to
the transport. -/
theorem start_command_discards_pending (env : Env) (sp : sess) (config : vcl_priv_t)
    (t : Thread) (name : String) (hname : name.length > 0) :
    pending_command sp (vmod_command env sp config (some name) t)
        = [String.mk (upper_loop name.toList)] ∧
    stored_reply sp (vmod_command env sp config (some name) t) = none ∧
    pending_command sp
        (vmod_push env sp config (some "z") (vmod_push env sp config (some "y")
          (vmod_command env sp config (some "SET")
            (vmod_push env sp config (some "x") (vmod_command env sp config (some "GET") t)))))
        = ["SET", "y", "z"] ∧
    ∀ c, (get_thread_state env sp config false
        (vmod_push env sp config (some "z") (vmod_push env sp config (some "y")
          (vmod_command env sp config (some "SET")
            (vmod_push env sp config (some "x")
              (vmod_command env sp config (some "GET") t)))))).1.context = some c →
      (vmod_execute env sp config
        (vmod_push env sp config (some "z") (vmod_push env sp config (some "y")
          (vmod_command env sp config (some "SET")
            (vmod_push env sp config (some "x")
              (vmod_command env sp config (some "GET") t)))))).world.sent
        = t.world.sent ++ [{ context := c, argv := ["SET", "y", "z"] }] := by
  have hset : pending_command sp
      (vmod_push env sp config (some "z") (vmod_push env sp config (some "y")
        (vmod_command env sp config (some "SET")
          (vmod_push env sp config (some "x") (vmod_command env sp config (some "GET") t)))))
      = ["SET", "y", "z"] := by
    have hu : String.mk (upper_loop "SET".toList) = "SET" := by decide
    have h1 := vmod_command_pending env sp config "SET"
      (vmod_push env sp config (some "x") (vmod_command env sp config (some "GET") t))
      (by decide)
    rw [hu] at h1
    simp [vmod_push_pending, h1, MAX_REDIS_COMMAND_ARGS]
  refine ⟨vmod_command_pending env sp config name t hname,
    vmod_command_reply env sp config name t hname, hset, ?_⟩
  intro c hc
  have ha := get_thread_state_argv env sp config
    (vmod_push env sp config (some "z") (vmod_push env sp config (some "y")
      (vmod_command env sp config (some "SET")
        (vmod_push env sp config (some "x") (vmod_command env sp config (some "GET") t)))))
  rw [hset] at ha
  rw [vmod_execute_plain env sp config _ "SET" ["y", "z"] c hset (Or.inl (by decide)) hc]
  simp [check_reply_sent, send_command, get_thread_state_sent, ha, vmod_push_sent,
    vmod_command_sent]

/-- C5, at the name `SET` on a thread that holds `GET x`. -/
theorem start_command_discards_pending_witness :
    "SET".length > 0 ∧
    pending_command request_a
      (vmod_command sample_env request_a sample_config (some "SET")
        (sample_thread ["GET", "x"] none)) = [String.mk (upper_loop "SET".toList)] :=
  ⟨by decide,
   (start_command_discards_pending sample_env request_a sample_config
      (sample_thread ["GET", "x"] none) "SET" (by decide)).1⟩

/-- C6: after `vmod_command` with a non-empty name and the pushes of `args` in
the same request, the pending command is the verb followed by the pushed
values (a missing value as the empty string), cut after 128 entries, so it has
min(1 + n, 128) entries; a push that finds 128 entries leaves the pending
command as it was and logs the failure. -/
theorem push_never_exceeds_capacity (env : Env) (sp : sess) (config : vcl_priv_t)
    (t : Thread) (name : String) (args : List (Option String)) (hname : name.length > 0) :
    pending_command sp
        (args.foldl (fun t a => vmod_push env sp config a t)
          (vmod_command env sp config (some name) t))
      = (String.mk (upper_loop name.toList) :: args.map (fun a => a.getD "")).take 128 ∧
    (pending_command sp
        (args.foldl (fun t a => vmod_push env sp config a t)
          (vmod_command env sp config (some name) t))).length = min (1 + args.length) 128 ∧
    ∀ (full : Thread) (arg : Option String), (pending_command sp full).length = 128 →
      pending_command sp (vmod_push env sp config arg full) = pending_command sp full ∧
      (vmod_push env sp config arg full).world.log =
        (get_thread_state env sp config false full).2.log ++ [push_failure] := by
  have hc := vmod_command_pending env sp config name t hname
  have hp := push_all_pending env sp config args (vmod_command env sp config (some name) t)
    (by rw [hc]; simp) (by rw [hc]; simp [MAX_REDIS_COMMAND_ARGS])
  rw [hc] at hp
  have hp2 : pending_command sp
        (args.foldl (fun t a => vmod_push env sp config a t)
          (vmod_command env sp config (some name) t))
      = (String.mk (upper_loop name.toList) :: args.map (fun a => a.getD "")).take 128 := by
    rw [hp]; rfl
  refine ⟨hp2, ?_, ?_⟩
  · rw [hp2, List.length_take, List.length_cons, List.length_map]
    omega
  · intro full arg hfull
    exact vmod_push_refused env sp config arg full
      (Or.inr (by rw [hfull]; simp [MAX_REDIS_COMMAND_ARGS]))

/-- C6, at two pushes after `SET`. -/
theorem push_never_exceeds_capacity_witness :
    "SET".length > 0 ∧
    pending_command request_a
        ([some "y", none].foldl (fun t a => vmod_push sample_env request_a sample_config a t)
          (vmod_command sample_env request_a sample_config (some "SET") fresh_thread))
      = (String.mk (upper_loop "SET".toList) :: [some "y", none].map (fun a => a.getD "")).take
          128 :=
  ⟨by decide,
   (push_never_exceeds_capacity sample_env request_a sample_config fresh_thread "SET"
      [some "y", none] (by decide)).1⟩

/-- C7: a push that finds no verb (nothing pending for the request: a fresh
thread, a flushed state, a state of another request) leaves the pending command
empty, hands nothing to the transport and logs the failure, whatever the
value; so does a push right after `vmod_free`. -/
theorem push_without_verb (env : Env) (sp : sess) (config : vcl_priv_t)
    (t : Thread) (arg : Option String) (hempty : pending_command sp t = []) :
    pending_command sp (vmod_push env sp config arg t) = [] ∧
    (vmod_push env sp config arg t).world.log =
      (get_thread_state env sp config false t).2.log ++ [push_failure] ∧
    (vmod_push env sp config arg t).world.sent = t.world.sent ∧
    pending_command sp (vmod_push env sp config arg (vmod_free env sp config t)) = [] := by
  have h := vmod_push_refused env sp config arg t (Or.inl (by rw [hempty]; rfl))
  rw [hempty] at h
  refine ⟨h.1, h.2, vmod_push_sent env sp config arg t, ?_⟩
  have hf := vmod_free_pending env sp config t
  have h2 := vmod_push_refused env sp config arg (vmod_free env sp config t)
    (Or.inl (by rw [hf]; rfl))
  rw [h2.1, hf]

/-- C7, on a thread that never called the module, with a missing value. -/
theorem push_without_verb_witness :
    pending_command request_a fresh_thread = [] ∧
    pending_command request_a (vmod_push sample_env request_a sample_config none fresh_thread)
      = [] :=
  ⟨rfl, (push_without_verb sample_env request_a sample_config fresh_thread none rfl).1⟩

/-- C8: when the pending command is not empty and is not an EVAL with a script
(its verb differs from EVAL, or it is EVAL alone), and `vmod_execute` obtains a
connection `c`, exactly one command is handed to the transport, with the
entries of the pending command in order, and the reply to it (or its absence)
becomes the stored reply, whatever was stored before; the pending command
stays as it was. -/
theorem execute_plain_send (env : Env) (sp : sess) (config : vcl_priv_t)
    (t : Thread) (verb : String) (rest : List String) (c : redisContext)
    (hargv : pending_command sp t = verb :: rest)
    (hplain : verb ≠ "EVAL" ∨ rest = [])
    (hctx : (get_thread_state env sp config false t).1.context = some c) :
    (vmod_execute env sp config t).world.sent =
        t.world.sent ++ [{ context := c, argv := verb :: rest }] ∧
    stored_reply sp (vmod_execute env sp config t) =
        (env.redisCommandArgv (get_thread_state env sp config false t).2 c (verb :: rest)).1 ∧
    pending_command sp (vmod_execute env sp config t) = verb :: rest := by
  have ha := get_thread_state_argv env sp config t
  rw [hargv] at ha
  rw [vmod_execute_plain env sp config t verb rest c hargv hplain hctx]
  refine ⟨?_, ?_, ?_⟩
  · simp [check_reply_sent, send_command, get_thread_state_sent, ha]
  · rw [stored_reply_of]
    · simp [send_command, ha]
    · simp [send_command, get_thread_state_xid]
    · simp [send_command, get_thread_state_id]
  · rw [pending_command_of]
    · simp [send_command, ha]
    · simp [send_command, get_thread_state_xid]
    · simp [send_command, get_thread_state_id]

/-- C8, for `GET k` with an older status reply still stored. -/
theorem execute_plain_send_witness :
    pending_command request_a
        (sample_thread ["GET", "k"] (some (redisReply.mk REDIS_REPLY_STATUS 0 "OK" [])))
        = ["GET", "k"] ∧
    (vmod_execute sample_env request_a sample_config
        (sample_thread ["GET", "k"]
          (some (redisReply.mk REDIS_REPLY_STATUS 0 "OK" [])))).world.sent =
      [{ context := sample_context, argv := ["GET", "k"] }] :=
  ⟨rfl,
   (execute_plain_send sample_env request_a sample_config
      (sample_thread ["GET", "k"] (some (redisReply.mk REDIS_REPLY_STATUS 0 "OK" [])))
      "GET" ["k"] sample_context rfl (Or.inl (by decide)) rfl).1⟩

/-- C9: `vmod_get_array_reply_value` is bounds-checked.  For an `int` index and
a stored array whose pointer table fits the address space (fewer than 2^61
entries), it returns `get_reply` of the element at `index` when the stored
reply is an array and `0 ≤ index < elements`, and `NULL` when the index is
negative, when `elements ≤ index`, when the reply is not an array and when no
reply is stored; in no case does it read outside the element table. -/
theorem array_element_bounds_checked (env : Env) (sp : sess) (config : vcl_priv_t)
    (t : Thread) (index : Int)
    (hint : -2 ^ 31 ≤ index ∧ index < 2 ^ 31)
    (hsize : ∀ r, stored_reply sp t = some r → r.elements < 2 ^ 61) :
    (stored_reply sp t = none →
      (vmod_get_array_reply_value env sp config index t).1 = .ok none) ∧
    (∀ r, stored_reply sp t = some r → r.type ≠ REDIS_REPLY_ARRAY →
      (vmod_get_array_reply_value env sp config index t).1 = .ok none) ∧
    (∀ r, stored_reply sp t = some r → r.type = REDIS_REPLY_ARRAY → index < 0 →
      (vmod_get_array_reply_value env sp config index t).1 = .ok none) ∧
    (∀ r, stored_reply sp t = some r → r.type = REDIS_REPLY_ARRAY →
      (r.elements : Int) ≤ index →
      (vmod_get_array_reply_value env sp config index t).1 = .ok none) ∧
    (∀ r, stored_reply sp t = some r → r.type = REDIS_REPLY_ARRAY →
      0 ≤ index → index < (r.elements : Int) →
      ∃ e, r.element.get? index.toNat = some e ∧
        (vmod_get_array_reply_value env sp config index t).1 = .ok (get_reply e)) ∧
    (∀ f, (vmod_get_array_reply_value env sp config index t).1 ≠ .error f) := by
  rw [vmod_get_array_reply_value_eq]
  have hin : ∀ r : redisReply, 0 ≤ index → index < (r.elements : Int) →
      ∃ e, r.element.get? index.toNat = some e ∧
        (element_at r index).map get_reply = .ok (get_reply e) := by
    intro r h0 h1
    have hlt : index.toNat < r.element.length := by
      unfold redisReply.elements at h1
      omega
    refine ⟨r.element.get ⟨index.toNat, hlt⟩, List.get?_eq_get hlt, ?_⟩
    unfold element_at
    rw [if_pos h0, List.get?_eq_get hlt]
    rfl
  refine ⟨?_, ?_, ?_, ?_, ?_, ?_⟩
  · intro h
    rw [h]
  · intro r h ht
    rw [h]
    simp [ht]
  · intro r h _ hneg
    rw [h]
    have h1 := size_t_of_int_neg index hneg hint.1
    have h2 := hsize r h
    simp only []
    rw [if_neg]
    intro hc
    omega
  · intro r h _ hge
    rw [h]
    simp only []
    rw [if_neg]
    intro hc
    have h0 : 0 ≤ index := le_trans (Int.ofNat_nonneg _) hge
    rw [size_t_of_int_nonneg index h0 hint.2] at hc
    omega
  · intro r h ht h0 h1
    rw [h]
    obtain ⟨e, he, hv⟩ := hin r h0 h1
    refine ⟨e, he, ?_⟩
    simp only []
    rw [if_pos, hv]
    refine ⟨ht, ?_⟩
    rw [size_t_of_int_nonneg index h0 hint.2]
    omega
  · intro f
    cases hr : stored_reply sp t with
    | none => simp
    | some r =>
      simp only []
      by_cases hc : r.type = REDIS_REPLY_ARRAY ∧ size_t_of_int index < r.elements
      · rw [if_pos hc]
        have h0 : 0 ≤ index := by
          by_contra hneg
          have h1 := size_t_of_int_neg index (by omega) hint.1
          have h2 := hsize r hr
          omega
        have h1 : index < (r.elements : Int) := by
          have := hc.2
          rw [size_t_of_int_nonneg index h0 hint.2] at this
          omega
        obtain ⟨e, -, hv⟩ := hin r h0 h1
        rw [hv]
        simp
      · rw [if_neg hc]
        simp

/-- C9, at index 2 and at index -1 of a stored array of three elements. -/
theorem array_element_bounds_checked_witness :
    (vmod_get_array_reply_value sample_env request_a sample_config 3
        (sample_thread [] (some small_array_reply))).1 = .ok none ∧
    (vmod_get_array_reply_value sample_env request_a sample_config (-1)
        (sample_thread [] (some small_array_reply))).1 = .ok none :=
  ⟨(array_element_bounds_checked sample_env request_a sample_config
      (sample_thread [] (some small_array_reply)) 3 (by decide)
      (by
        intro r hr
        have h1 : r = small_array_reply := (Option.some.inj hr).symm
        rw [h1]
        decide)).2.2.2.1 small_array_reply rfl rfl (by decide),
   (array_element_bounds_checked sample_env request_a sample_config
      (sample_thread [] (some small_array_reply)) (-1) (by decide)
      (by
        intro r hr
        have h1 : r = small_array_reply := (Option.some.inj hr).symm
        rw [h1]
        decide)).2.2.1 small_array_reply rfl rfl (by decide)⟩

/-- C10 as stated fails: for a stored array reply of 2^31 elements
`vmod_get_array_reply_length` returns -2147483648, not the element count. -/
theorem array_length_wraps_at_int_range :
    stored_reply request_a (sample_thread [] (some big_array_reply)) = some big_array_reply ∧
    big_array_reply.type = REDIS_REPLY_ARRAY ∧
    big_array_reply.elements = 2147483648 ∧
    (vmod_get_array_reply_length sample_env request_a sample_config
      (sample_thread [] (some big_array_reply))).1 = -2147483648 := by
  have hs : stored_reply request_a (sample_thread [] (some big_array_reply))
      = some big_array_reply := rfl
  have ht : big_array_reply.type = REDIS_REPLY_ARRAY := rfl
  refine ⟨hs, ht, big_array_reply_elements, ?_⟩
  rw [vmod_get_array_reply_length_eq, hs]
  simp only []
  rw [if_pos ht, big_array_reply_elements]
  unfold int_of_size_t
  norm_num

/-- C10, amended: `vmod_get_array_reply_length` returns the element count
converted to `int` when the stored reply is an array, which is the element
count itself whenever that is at most 2^31 - 1, and returns 0 for a stored
reply of any other type and when no reply is stored. -/
theorem array_length_of_reply (env : Env) (sp : sess) (config : vcl_priv_t) (t : Thread) :
    (stored_reply sp t = none → (vmod_get_array_reply_length env sp config t).1 = 0) ∧
    (∀ r, stored_reply sp t = some r → r.type ≠ REDIS_REPLY_ARRAY →
      (vmod_get_array_reply_length env sp config t).1 = 0) ∧
    (∀ r, stored_reply sp t = some r → r.type = REDIS_REPLY_ARRAY →
      (vmod_get_array_reply_length env sp config t).1 = int_of_size_t r.elements) ∧
    (∀ r, stored_reply sp t = some r → r.type = REDIS_REPLY_ARRAY → r.elements < 2 ^ 31 →
      (vmod_get_array_reply_length env sp config t).1 = (r.elements : Int)) := by
  rw [vmod_get_array_reply_length_eq]
  refine ⟨?_, ?_, ?_, ?_⟩
  · intro h
    rw [h]
  · intro r h ht
    rw [h]
    simp [ht]
  · intro r h ht
    rw [h]
    simp [ht]
  · intro r h ht hlt
    rw [h]
    simp [ht, int_of_size_t_small r.elements hlt]

/-- C10 amended, at a stored array of three elements and at a stored integer. -/
theorem array_length_of_reply_witness :
    (vmod_get_array_reply_length sample_env request_a sample_config
      (sample_thread [] (some small_array_reply))).1 = (small_array_reply.elements : Int) ∧
    (vmod_get_array_reply_length sample_env request_a sample_config
      (sample_thread [] (some (redisReply.mk REDIS_REPLY_INTEGER 5 "" [])))).1 = 0 :=
  ⟨(array_length_of_reply sample_env request_a sample_config
      (sample_thread [] (some small_array_reply))).2.2.2 small_array_reply rfl rfl (by decide),
   (array_length_of_reply sample_env request_a sample_config
      (sample_thread [] (some (redisReply.mk REDIS_REPLY_INTEGER 5 "" [])))).2.1
      (redisReply.mk REDIS_REPLY_INTEGER 5 "" []) rfl (by decide)⟩

/-- C11 as stated fails: for the stored string reply whose payload is `a`, NUL,
`b`, `vmod_get_reply` returns `a`, not the payload. -/
theorem get_reply_cuts_at_nul :
    stored_reply request_a (sample_thread [] (some nul_reply)) = some nul_reply ∧
    nul_reply.type = REDIS_REPLY_STRING ∧
    nul_reply.str.length = 3 ∧
    (vmod_get_reply sample_env request_a sample_config
      (sample_thread [] (some nul_reply))).1 = some "a" ∧
    (vmod_get_reply sample_env request_a sample_config
      (sample_thread [] (some nul_reply))).1 ≠ some nul_reply.str := by
  refine ⟨rfl, rfl, rfl, ?_, ?_⟩ <;> decide

/-- C11, amended: `vmod_get_reply` by reply type.  Error, status and string
replies give their `str` up to its first NUL, which is the whole `str` when it
holds no NUL; an integer reply gives the decimal text of its `integer`; an
array reply gives the text `array`, whatever its elements; a nil reply, a
reply of a type outside the six of hiredis.h, and no stored reply give
`NULL`. -/
theorem get_reply_text_by_kind (env : Env) (sp : sess) (config : vcl_priv_t) (t : Thread) :
    (stored_reply sp t = none → (vmod_get_reply env sp config t).1 = none) ∧
    ∀ r, stored_reply sp t = some r →
      (r.type = REDIS_REPLY_ERROR ∨ r.type = REDIS_REPLY_STATUS ∨ r.type = REDIS_REPLY_STRING →
        (vmod_get_reply env sp config t).1 = some (c_string r.str) ∧
        ((∀ ch ∈ r.str.toList, ch ≠ Char.ofNat 0) →
          (vmod_get_reply env sp config t).1 = some r.str)) ∧
      (r.type = REDIS_REPLY_INTEGER →
        (vmod_get_reply env sp config t).1 = some (toString r.integer)) ∧
      (r.type = REDIS_REPLY_ARRAY → (vmod_get_reply env sp config t).1 = some "array") ∧
      (r.type = REDIS_REPLY_NIL → (vmod_get_reply env sp config t).1 = none) ∧
      (r.type ≠ REDIS_REPLY_ERROR → r.type ≠ REDIS_REPLY_STATUS →
        r.type ≠ REDIS_REPLY_STRING → r.type ≠ REDIS_REPLY_INTEGER →
        r.type ≠ REDIS_REPLY_ARRAY → (vmod_get_reply env sp config t).1 = none) := by
  rw [vmod_get_reply_eq]
  constructor
  · intro h
    rw [h]
  · intro r h
    rw [h]
    simp only [get_reply, WS_Dup]
    refine ⟨?_, ?_, ?_, ?_, ?_⟩
    · intro ht
      rw [if_pos ht]
      exact ⟨rfl, fun hn => by rw [c_string_of_no_nul r.str hn]⟩
    · intro ht
      have hi := c_string_of_no_nul (toString r.integer) (int_text_no_nul r.integer)
      simp [ht, hi, REDIS_REPLY_INTEGER, REDIS_REPLY_ERROR, REDIS_REPLY_STATUS,
        REDIS_REPLY_STRING]
    · intro ht
      have ha : c_string "array" = "array" := by decide
      simp [ht, ha, REDIS_REPLY_INTEGER, REDIS_REPLY_ERROR, REDIS_REPLY_STATUS,
        REDIS_REPLY_STRING, REDIS_REPLY_ARRAY]
    · intro ht
      simp [ht, REDIS_REPLY_INTEGER, REDIS_REPLY_ERROR, REDIS_REPLY_STATUS, REDIS_REPLY_STRING,
        REDIS_REPLY_ARRAY, REDIS_REPLY_NIL]
    · intro h1 h2 h3 h4 h5
      simp [h1, h2, h3, h4, h5]

/-- C11 amended, at the integer reply -42, at a status reply and at an array
reply. -/
theorem get_reply_text_by_kind_witness :
    (vmod_get_reply sample_env request_a sample_config
      (sample_thread [] (some (redisReply.mk REDIS_REPLY_INTEGER (-42) "" [])))).1
        = some "-42" ∧
    (vmod_get_reply sample_env request_a sample_config
      (sample_thread [] (some (redisReply.mk REDIS_REPLY_STATUS 0 "OK" [])))).1
        = some "OK" ∧
    (vmod_get_reply sample_env request_a sample_config
      (sample_thread [] (some small_array_reply))).1 = some "array" :=
  ⟨(((get_reply_text_by_kind sample_env request_a sample_config
      (sample_thread [] (some (redisReply.mk REDIS_REPLY_INTEGER (-42) "" [])))).2
      (redisReply.mk REDIS_REPLY_INTEGER (-42) "" []) rfl).2.1 rfl).trans (by decide),
   (((get_reply_text_by_kind sample_env request_a sample_config
      (sample_thread [] (some (redisReply.mk REDIS_REPLY_STATUS 0 "OK" [])))).2
      (redisReply.mk REDIS_REPLY_STATUS 0 "OK" []) rfl).1 (Or.inr (Or.inl rfl))).2
      (by decide),
   ((get_reply_text_by_kind sample_env request_a sample_config
      (sample_thread [] (some small_array_reply))).2 small_array_reply rfl).2.2.1 rfl⟩

/-- C12: `vmod_command` with a non-empty name leaves exactly one pending entry,
the name with every character replaced by its `toupper` (the loop of line 163,
read with the right operand evaluated before the increment): same length,
position by position, letters `a`-`z` turned into `A`-`Z` and every other
character kept.  So `eval` followed by a script is executed as an EVAL: the
first command handed to the transport is an `EVALSHA` whose `argv[1]` is what
`sha1` returned for the script. -/
theorem start_command_uppercases_verb (env : Env) (sp : sess) (config : vcl_priv_t)
    (t : Thread) (name : String) (hname : name.length > 0) :
    pending_command sp (vmod_command env sp config (some name) t)
      = [String.mk (upper_loop name.toList)] ∧
    (String.mk (upper_loop name.toList)).length = name.length ∧
    (∀ i : Nat, (upper_loop name.toList)[i]? = (name.toList[i]?).map toupper) ∧
    (∀ ch : Char, toupper ch = ch.toUpper) ∧
    (∀ ch : Char, (97 ≤ ch.toNat ∧ ch.toNat ≤ 122 → (toupper ch).toNat = ch.toNat - 32) ∧
      (¬(97 ≤ ch.toNat ∧ ch.toNat ≤ 122) → toupper ch = ch)) ∧
    ∀ (script : String) (c : redisContext),
      (get_thread_state env sp config false
        (vmod_push env sp config (some script)
          (vmod_command env sp config (some "eval") t))).1.context = some c →
      ∃ more, (vmod_execute env sp config
        (vmod_push env sp config (some script)
          (vmod_command env sp config (some "eval") t))).world.sent =
        t.world.sent ++
          { context := c,
            argv := ["EVALSHA",
              sha1 env (get_thread_state env sp config false
                (vmod_push env sp config (some script)
                  (vmod_command env sp config (some "eval") t))).2 script] } :: more := by
  refine ⟨vmod_command_pending env sp config name t hname, ?_, ?_, fun _ => rfl, ?_, ?_⟩
  · show (upper_loop name.toList).length = name.toList.length
    exact upper_loop_length _
  · intro i
    rw [upper_loop_eq_map, List.getElem?_map]
  · intro ch
    constructor
    · intro h
      unfold toupper
      rw [if_pos h]
      obtain ⟨h1, h2⟩ := h
      generalize ch.toNat = n at h1 h2
      interval_cases n <;> rfl
    · intro h
      unfold toupper
      rw [if_neg h]
  · intro script c hc
    have hu : String.mk (upper_loop "eval".toList) = "EVAL" := by decide
    have h1 := vmod_command_pending env sp config "eval" t (by decide)
    rw [hu] at h1
    have h2 : pending_command sp
        (vmod_push env sp config (some script) (vmod_command env sp config (some "eval") t))
          = ["EVAL", script] := by
      simp [vmod_push_pending, h1, MAX_REDIS_COMMAND_ARGS]
    obtain ⟨more, hm⟩ := vmod_execute_eval_first env sp config _ script [] c h2 hc
    exact ⟨more, by rw [hm, vmod_push_sent, vmod_command_sent]⟩

/-- C12, at the name `eval`. -/
theorem start_command_uppercases_verb_witness :
    "eval".length > 0 ∧
    pending_command request_a
      (vmod_command sample_env request_a sample_config (some "eval") fresh_thread)
        = ["EVAL"] :=
  ⟨by decide,
   (start_command_uppercases_verb sample_env request_a sample_config fresh_thread "eval"
      (by decide)).1.trans (by decide)⟩

/-- C13: the buffer of `sha1`.  The block is allocated with `block_size * 2`
= 40 bytes; every `sprintf` writes two digits and a NUL, so the last one writes
its NUL at offset 40, outside the block: for every script the loop ends in an
out-of-bounds write.  With one byte more the loop stays inside the block and
leaves the 40 digits of `sha1_digits env script`, lowercase hexadecimal,
followed by the NUL.  As it is, the C string at the pointer returned is those
digits followed by what lies behind the block. -/
theorem sha1_terminator_out_of_bounds (env : Env) (script : String) :
    sha1_block env script = .error Fault.out_of_bounds ∧
    encode_from env script block_size 0 (List.replicate (block_size * 2 + 1) none)
      = .ok ((sha1_digits env script).toList.map some ++ [some (Char.ofNat 0)]) ∧
    (sha1_digits env script).length = 40 ∧
    (∀ ch ∈ (sha1_digits env script).toList, ch ∈ "0123456789abcdef".toList) ∧
    ∀ w : World, sha1 env w script = sha1_digits env script ++ env.heap_after w script := by
  refine ⟨?_, ?_, (sha1_text env script).1, (sha1_text env script).2, fun _ => rfl⟩
  · exact encode_from_overflow env script block_size 0 _ (by decide)
      (by simp [block_size])
  · have h := encode_from_content env script block_size 0 [] none (by decide) rfl
    rw [List.replicate_succ]
    simpa [sha1_digits, List.range_eq_range'] using h

/-- C14 as stated fails: for the stored integer reply 2147483648, a 64-bit
value, `vmod_get_integer_reply` returns -2147483648. -/
theorem get_integer_wraps_at_int_range :
    stored_reply request_a (sample_thread [] (some wide_integer_reply))
      = some wide_integer_reply ∧
    wide_integer_reply.type = REDIS_REPLY_INTEGER ∧
    wide_integer_reply.integer = 2147483648 ∧
    (vmod_get_integer_reply sample_env request_a sample_config
      (sample_thread [] (some wide_integer_reply))).1 = -2147483648 := by
  refine ⟨rfl, rfl, rfl, ?_⟩
  decide

/-- C14, amended: `vmod_get_integer_reply` is a projection of the stored reply.
For a stored integer reply carrying `n` it returns `n` converted to `int`,
which is `n` itself whenever `-2^31 ≤ n < 2^31`; it returns 0 for a stored
reply of any other type and when no reply is stored. -/
theorem get_integer_of_reply (env : Env) (sp : sess) (config : vcl_priv_t) (t : Thread) :
    (stored_reply sp t = none → (vmod_get_integer_reply env sp config t).1 = 0) ∧
    (∀ r, stored_reply sp t = some r → r.type ≠ REDIS_REPLY_INTEGER →
      (vmod_get_integer_reply env sp config t).1 = 0) ∧
    (∀ r, stored_reply sp t = some r → r.type = REDIS_REPLY_INTEGER →
      (vmod_get_integer_reply env sp config t).1 = int_of_long_long r.integer) ∧
    (∀ r, stored_reply sp t = some r → r.type = REDIS_REPLY_INTEGER →
      -2 ^ 31 ≤ r.integer → r.integer < 2 ^ 31 →
      (vmod_get_integer_reply env sp config t).1 = r.integer) ∧
    stored_reply sp (vmod_get_integer_reply env sp config t).2 = stored_reply sp t := by
  rw [vmod_get_integer_reply_eq]
  refine ⟨?_, ?_, ?_, ?_, (stored_reply_bound env sp config t).1⟩
  · intro h
    rw [h]
  · intro r h ht
    rw [h]
    simp [ht]
  · intro r h ht
    rw [h]
    simp [ht]
  · intro r h ht h0 h1
    rw [h]
    simp [ht, int_of_long_long_small r.integer h0 h1]

/-- C14 amended, at the stored integer reply -7 and at a stored status reply. -/
theorem get_integer_of_reply_witness :
    (vmod_get_integer_reply sample_env request_a sample_config
      (sample_thread [] (some (redisReply.mk REDIS_REPLY_INTEGER (-7) "" [])))).1 = -7 ∧
    (vmod_get_integer_reply sample_env request_a sample_config
      (sample_thread [] (some (redisReply.mk REDIS_REPLY_STATUS 0 "OK" [])))).1 = 0 :=
  ⟨(get_integer_of_reply sample_env request_a sample_config
      (sample_thread [] (some (redisReply.mk REDIS_REPLY_INTEGER (-7) "" [])))).2.2.2.1
      (redisReply.mk REDIS_REPLY_INTEGER (-7) "" []) rfl rfl (by decide) (by decide),
   (get_integer_of_reply sample_env request_a sample_config
      (sample_thread [] (some (redisReply.mk REDIS_REPLY_STATUS 0 "OK" [])))).2.1
      (redisReply.mk REDIS_REPLY_STATUS 0 "OK" []) rfl (by decide)⟩

/-- C15: when `vmod_execute` obtains no connection (the state holds no usable
one and the one connection attempt fails), then, with a verb set or not,
nothing is handed to the transport, the pending command stays as it was, and
no reply is stored: the next call
of the same request finds every `vmod_reply_is_*` false, `vmod_get_reply` and
the string getters `NULL`, the integer getter and the array length 0 and no
array element.  The thread is taken in a state where a stored reply comes with
the error-free connection it was received on, which every call preserves when
`redisCommandArgv` returns a reply only without error. -/
theorem execute_without_connection (env : Env) (sp : sess) (config : vcl_priv_t)
    (t : Thread)
    (hnone : (get_thread_state env sp config false t).1.context = none)
    (hinv : reply_has_connection t) :
    (vmod_execute env sp config t).world.sent = t.world.sent ∧
    (vmod_execute env sp config t).world.attempts = t.world.attempts + 1 ∧
    pending_command sp (vmod_execute env sp config t) = pending_command sp t ∧
    stored_reply sp (vmod_execute env sp config t) = none ∧
    (∀ upper, (vmod_reply_is upper env sp config (vmod_execute env sp config t)).1 = false) ∧
    (vmod_get_reply env sp config (vmod_execute env sp config t)).1 = none ∧
    (∀ upper,
      (vmod_get_str_reply upper env sp config (vmod_execute env sp config t)).1 = none) ∧
    (vmod_get_integer_reply env sp config (vmod_execute env sp config t)).1 = 0 ∧
    (vmod_get_array_reply_length env sp config (vmod_execute env sp config t)).1 = 0 ∧
    (∀ index, (vmod_get_array_reply_value env sp config index
      (vmod_execute env sp config t)).1 = .ok none) ∧
    (reply_without_error env → ∀ call : Call,
      reply_has_connection (call.run env sp config t).2) ∧
    (∀ name : Option String, reply_has_connection (vmod_command env sp config name t)) := by
  have hr0 : (get_thread_state env sp config false t).1.reply = none := by
    by_contra hr
    obtain ⟨c, hc, -⟩ := get_thread_state_coherent env sp config false t hinv hr
    rw [hnone] at hc
    cases hc
  have hsr : stored_reply sp (vmod_execute env sp config t) = none := by
    rw [vmod_execute_idle env sp config t (Or.inl hnone), (stored_reply_bound env sp config t).1,
      ← get_thread_state_reply env sp config t]
    exact hr0
  refine ⟨?_, ?_, ?_, hsr, ?_, ?_, ?_, ?_, ?_, ?_, ?_,
    fun name => (vmod_command_coherent env sp config name t hinv).1⟩
  · rw [vmod_execute_idle env sp config t (Or.inl hnone)]
    exact get_thread_state_sent env sp config false t
  · rw [vmod_execute_idle env sp config t (Or.inl hnone)]
    exact get_thread_state_none_attempt env sp config false t hnone
  · rw [vmod_execute_idle env sp config t (Or.inl hnone)]
    exact (stored_reply_bound env sp config t).2
  · intro upper
    rw [vmod_reply_is_eq, hsr]
  · rw [vmod_get_reply_eq, hsr]
  · intro upper
    rw [vmod_get_str_reply_eq, hsr]
  · rw [vmod_get_integer_reply_eq, hsr]
  · rw [vmod_get_array_reply_length_eq, hsr]
  · intro index
    rw [vmod_get_array_reply_value_eq, hsr]
  · intro henv call
    exact run_coherent env sp config call t henv hinv

/-- C15, at `GET k` pending on a thread without connection whose server cannot
be reached. -/
theorem execute_without_connection_witness :
    pending_command request_a unconnected_thread ≠ [] ∧
    (vmod_execute down_env request_a sample_config unconnected_thread).world.sent = [] ∧
    (vmod_get_reply down_env request_a sample_config
      (vmod_execute down_env request_a sample_config unconnected_thread)).1 = none :=
  ⟨by decide,
   (execute_without_connection down_env request_a sample_config unconnected_thread
      rfl (by
        intro st hs hr
        cases hs
        exact absurd rfl hr)).1,
   (execute_without_connection down_env request_a sample_config unconnected_thread
      rfl (by
        intro st hs hr
        cases hs
        exact absurd rfl hr)).2.2.2.2.2.1⟩

/-- C16: `vmod_execute` with nothing pending for the request hands nothing to
the transport and leaves the pending command empty and the stored reply as it
was; on a state of the same request with `argc = 0` the fields `argv`, `reply`,
`xid` and `id` are exactly what they were. -/
theorem execute_without_verb_noop (env : Env) (sp : sess) (config : vcl_priv_t) (t : Thread)
    (hempty : pending_command sp t = []) :
    (vmod_execute env sp config t).world.sent = t.world.sent ∧
    pending_command sp (vmod_execute env sp config t) = [] ∧
    stored_reply sp (vmod_execute env sp config t) = stored_reply sp t ∧
    ∀ st, t.specific = some st → st.xid = sp.xid → st.id = sp.id →
      ∃ st1, (vmod_execute env sp config t).specific = some st1 ∧ st1.argv = st.argv ∧
        st1.reply = st.reply ∧ st1.xid = st.xid ∧ st1.id = st.id := by
  rw [vmod_execute_idle env sp config t (Or.inr hempty)]
  obtain ⟨h1, h2⟩ := stored_reply_bound env sp config t
  refine ⟨get_thread_state_sent env sp config false t, by rw [h2, hempty], h1, ?_⟩
  intro st hs hx hi
  refine ⟨_, rfl, ?_, ?_, ?_, ?_⟩
  · rw [get_thread_state_argv]
    simp [pending_command, hs, hx, hi]
  · rw [get_thread_state_reply]
    simp [stored_reply, hs, hx, hi]
  · rw [get_thread_state_xid, hx]
  · rw [get_thread_state_id, hi]

/-- C16, on a thread of `request_a` that holds a status reply and no command. -/
theorem execute_without_verb_noop_witness :
    pending_command request_a
      (sample_thread [] (some (redisReply.mk REDIS_REPLY_STATUS 0 "OK" []))) = [] ∧
    (vmod_execute sample_env request_a sample_config
      (sample_thread [] (some (redisReply.mk REDIS_REPLY_STATUS 0 "OK" [])))).world.sent
      = (sample_thread [] (some (redisReply.mk REDIS_REPLY_STATUS 0 "OK" []))).world.sent :=
  ⟨rfl,
   (execute_without_verb_noop sample_env request_a sample_config
      (sample_thread [] (some (redisReply.mk REDIS_REPLY_STATUS 0 "OK" []))) rfl).1⟩

/-- C17: a flush does not touch a connection whose error flag is clear.  When
the state holds such a connection `c`, `get_thread_state` returns a state that
still holds `c` and leaves the trace as it was (no attempt, nothing freed),
whether it flushes or not and whatever the request identity.  `vmod_free`
leaves the state with only the command and the reply dropped and the identity
recorded; `vmod_command` with a non-empty name leaves that state with the verb
set; and after any call made for another request the state is the old one with
the command and the reply dropped and the identity recorded, the trace
differing at most by log records. -/
theorem flush_keeps_healthy_connection (env : Env) (sp : sess) (config : vcl_priv_t)
    (t : Thread) (st : thread_state) (c : redisContext)
    (hs : t.specific = some st) (hc : st.context = some c) (herr : c.err = 0) :
    (∀ flush : Bool,
      (get_thread_state env sp config flush t).1.context = some c ∧
      (get_thread_state env sp config flush t).2 = t.world) ∧
    (flushed_for sp st).context = some c ∧
    vmod_free env sp config t = { specific := some (flushed_for sp st), world := t.world } ∧
    (∀ name : String, name.length > 0 →
      vmod_command env sp config (some name) t =
        { specific := some { flushed_for sp st with
                              argv := [String.mk (upper_loop name.toList)] },
          world := t.world }) ∧
    (∀ call : Call, st.xid ≠ sp.xid ∨ st.id ≠ sp.id →
      (call.run env sp config t).2.specific = some (flushed_for sp st) ∧
      (call.run env sp config t).2.world.attempts = t.world.attempts ∧
      (call.run env sp config t).2.world.freed = t.world.freed ∧
      (call.run env sp config t).2.world.sent = t.world.sent) := by
  have hk := fun flush => get_thread_state_kept env sp config flush t st c hs hc herr
  refine ⟨?_, hc, ?_, ?_, ?_⟩
  · intro flush
    rw [hk flush]
    exact ⟨by rw [check_request_context]; exact hc, rfl⟩
  · unfold vmod_free
    rw [hk true, check_request_true]
  · intro name hname
    rw [vmod_command_eq env sp config name t hname, hk true, check_request_true]
  · intro call hnew
    have hf := hk false
    have ht := hk true
    rw [check_request_changed sp false st hnew] at hf
    rw [check_request_true] at ht
    have hp : pending_command sp t = [] := (pending_command_other sp t st hs hnew).1
    cases call with
    | push arg =>
      simp only [Call.run]
      rw [vmod_push_fail env sp config arg t (Or.inl (by rw [hp]; rfl)), hf]
      exact ⟨rfl, rfl, rfl, rfl⟩
    | execute =>
      simp only [Call.run]
      rw [vmod_execute_idle env sp config t (Or.inr hp), hf]
      exact ⟨rfl, rfl, rfl, rfl⟩
    | reply_is upper =>
      simp [Call.run, vmod_reply_is, hf]
    | get_reply =>
      simp [Call.run, vmod_get_reply, hf]
    | get_str_reply upper =>
      simp [Call.run, vmod_get_str_reply, hf]
    | get_integer_reply =>
      simp [Call.run, vmod_get_integer_reply, hf]
    | get_array_reply_length =>
      simp [Call.run, vmod_get_array_reply_length, hf]
    | get_array_reply_value index =>
      simp [Call.run, vmod_get_array_reply_value, hf]
    | free =>
      simp [Call.run, vmod_free, ht]

/-- C17, at `vmod_free` called for `request_b` on a thread that holds
`sample_context` and `GET k` of `request_a`. -/
theorem flush_keeps_healthy_connection_witness :
    sample_context.err = 0 ∧
    vmod_free sample_env request_b sample_config (sample_thread ["GET", "k"] none) =
      { specific := some { xid := 1002, id := 7, context := some sample_context,
                           argv := [], reply := none },
        world := (sample_thread ["GET", "k"] none).world } :=
  ⟨rfl,
   (flush_keeps_healthy_connection sample_env request_b sample_config
      (sample_thread ["GET", "k"] none)
      { xid := 1001, id := 7, context := some sample_context, argv := ["GET", "k"],
        reply := none }
      sample_context rfl rfl rfl).2.2.1⟩

/-- C18: `vmod_command` with a missing or an empty name returns before it
touches the thread state: the thread, hence the pending command and the stored
reply of every request, is exactly what it was. -/
theorem start_command_empty_name_noop (env : Env) (sp : sess) (config : vcl_priv_t)
    (t : Thread) :
    vmod_command env sp config none t = t ∧
    vmod_command env sp config (some "") t = t ∧
    (∀ name : String, name.length = 0 → vmod_command env sp config (some name) t = t) ∧
    (∀ name : Option String, name = none ∨ name = some "" →
      ∀ any : sess,
        pending_command any (vmod_command env sp config name t) = pending_command any t ∧
        stored_reply any (vmod_command env sp config name t) = stored_reply any t) := by
  have h0 : ∀ name : String, name.length = 0 →
      vmod_command env sp config (some name) t = t := by
    intro name hname
    simp [vmod_command, hname]
  refine ⟨rfl, h0 "" rfl, h0, ?_⟩
  rintro name (h | h) any
  · rw [h]; exact ⟨rfl, rfl⟩
  · rw [h, h0 "" rfl]; exact ⟨rfl, rfl⟩

/-- C18, on a thread that holds `GET k` and a status reply. -/
theorem start_command_empty_name_noop_witness :
    pending_command request_a
      (vmod_command sample_env request_a sample_config (some "")
        (sample_thread ["GET", "k"] (some (redisReply.mk REDIS_REPLY_STATUS 0 "OK" []))))
      = ["GET", "k"] :=
  ((start_command_empty_name_noop sample_env request_a sample_config
      (sample_thread ["GET", "k"] (some (redisReply.mk REDIS_REPLY_STATUS 0 "OK" [])))).2.2.2
      (some "") (Or.inr rfl) request_a).1.trans rfl

/-- C19: for a timeout of `timeout` milliseconds that is not negative,
`new_vcl_priv` stores `timeout / 1000` seconds and `(timeout mod 1000) * 1000`
microseconds; the microseconds lie in `[0, 1000000)` and seconds and
microseconds together are exactly `timeout * 1000` microseconds.  The default
of `init_function`, 500 ms, is 0 s and 500000 microseconds. -/
theorem timeout_split_exact (host : String) (port : Int) (timeout : Int)
    (hpos : 0 ≤ timeout) :
    (new_vcl_priv host port timeout).tv_sec = timeout / 1000 ∧
    (new_vcl_priv host port timeout).tv_usec = timeout % 1000 * 1000 ∧
    0 ≤ (new_vcl_priv host port timeout).tv_usec ∧
    (new_vcl_priv host port timeout).tv_usec < 1000000 ∧
    (new_vcl_priv host port timeout).tv_sec * 1000000 + (new_vcl_priv host port timeout).tv_usec
      = timeout * 1000 ∧
    init_function none =
      some { host := "127.0.0.1", port := 6379, tv_sec := 0, tv_usec := 500000 } := by
  have h1 : timeout.tdiv 1000 = timeout / 1000 := Int.tdiv_eq_ediv hpos (by decide)
  have h2 : timeout.tmod 1000 = timeout % 1000 := Int.tmod_eq_emod hpos (by decide)
  have hs : (new_vcl_priv host port timeout).tv_sec = timeout / 1000 := h1
  have hu : (new_vcl_priv host port timeout).tv_usec = timeout % 1000 * 1000 := by
    show timeout.tmod 1000 * 1000 = timeout % 1000 * 1000
    rw [h2]
  rw [hs, hu]
  refine ⟨rfl, rfl, by omega, by omega, by omega, ?_⟩
  decide

/-- C19, at 1500 ms. -/
theorem timeout_split_exact_witness :
    (0 : Int) ≤ 1500 ∧
    (new_vcl_priv "127.0.0.1" 6379 1500).tv_sec * 1000000
      + (new_vcl_priv "127.0.0.1" 6379 1500).tv_usec = 1500 * 1000 :=
  ⟨by decide, (timeout_split_exact "127.0.0.1" 6379 1500 (by decide)).2.2.2.2.1⟩

/-- C20: the command left pending by an execute of `EVAL "return 1" 0` whose
EVALSHA attempt is answered by an integer, on a heap where a byte that is not
zero lies behind the block of `sha1`.  The pending command is `EVALSHA` with
the 40 digits followed by that byte, not the digest, and a second execute hands
exactly that to the transport once more. -/
theorem execute_leaves_unterminated_digest :
    pending_command request_a (sample_thread ["EVAL", "return 1", "0"] none)
        = ["EVAL", "return 1", "0"] ∧
    pending_command request_a
      (vmod_execute overrun_cached_env request_a sample_config
        (sample_thread ["EVAL", "return 1", "0"] none))
        = ["EVALSHA", sha1_digits overrun_cached_env "return 1" ++ "!", "0"] ∧
    sha1_digits overrun_cached_env "return 1" ++ "!"
      ≠ sha1_digits overrun_cached_env "return 1" ∧
    (vmod_execute overrun_cached_env request_a sample_config
      (vmod_execute overrun_cached_env request_a sample_config
        (sample_thread ["EVAL", "return 1", "0"] none))).world.sent =
      [{ context := sample_context,
         argv := ["EVALSHA", sha1_digits overrun_cached_env "return 1" ++ "!", "0"] },
       { context := sample_context,
         argv := ["EVALSHA", sha1_digits overrun_cached_env "return 1" ++ "!", "0"] }] := by
  refine ⟨rfl, rfl, ?_, rfl⟩
  decide

end VmodRedis
